import Mathlib

/-!
Verification of the template-driven metadata generation engine of the
fmg-metadata-generator repository (the Express server document inside
src/server/services/geminiService.js).

Strings are modelled as lists of characters (`Str`).  JavaScript string
operations used by the server are embedded one by one: `toLowerCase` and
`toUpperCase` on the ASCII range, the regex replacements used for
tokenisation (`[^\w\s]`, `\s+`), substring containment (`includes`),
global literal replacement chains (`replace(/a|b/g, r)`, with and without
the `i` flag), and the hashtag formatter.  Template literals are embedded
as lists of `Piece`s: alternating literal chunks and interpolation slots,
rendered against an environment holding the extracted topics and the
audience strings.  The unseeded shuffle (`sort(() => 0.5 - Math.random())`)
always produces some permutation of the template bucket, so generators take
the shuffled bucket as an argument and theorems quantify over all lists
that are permutations of the bucket.
-/

/-- JavaScript strings, modelled as lists of characters. -/
abbrev Str := List Char

/-- Character data of a Lean string literal. -/
def str (s : String) : Str := s.data

/-- JavaScript `toLowerCase`, modelled on the ASCII range. -/
def jsToLower (c : Char) : Char :=
  if 'A' ≤ c ∧ c ≤ 'Z' then Char.ofNat (c.toNat + 32) else c

/-- JavaScript `toUpperCase`, modelled on the ASCII range. -/
def jsToUpper (c : Char) : Char :=
  if 'a' ≤ c ∧ c ≤ 'z' then Char.ofNat (c.toNat - 32) else c

/-- ASCII letter. -/
def isAsciiAlpha (c : Char) : Bool :=
  ('A' ≤ c && c ≤ 'Z') || ('a' ≤ c && c ≤ 'z')

/-- The regex class `\w` (`[A-Za-z0-9_]`). -/
def jsIsWordChar (c : Char) : Bool :=
  isAsciiAlpha c || ('0' ≤ c && c ≤ '9') || c == '_'

/-- The regex class `\s`, modelled on the ASCII range. -/
def jsIsSpace (c : Char) : Bool :=
  c == ' ' || c == '\t' || c == '\n' || c == '\r' || c == '\x0b' || c == '\x0c'

/-- Worker of `collapseWs`; the flag records whether the scanner is inside
a whitespace run whose single replacement space has already been emitted. -/
def collapseWsAux (inRun : Bool) : Str → Str
  | [] => []
  | c :: cs =>
    if jsIsSpace c then
      if inRun then collapseWsAux true cs else ' ' :: collapseWsAux true cs
    else c :: collapseWsAux false cs

/-- The regex replacement `.replace(/\s+/g, ' ')`: every maximal run of
whitespace becomes a single space. -/
def collapseWs (s : Str) : Str := collapseWsAux false s

/-- JavaScript `trim`. -/
def trimWs (s : Str) : Str :=
  ((s.dropWhile jsIsSpace).reverse.dropWhile jsIsSpace).reverse

/-- JavaScript `split(sep)` for a single separator character
(`''.split` yields one empty piece, as in JavaScript). -/
def splitOnChar (sep : Char) : Str → List Str
  | [] => [[]]
  | c :: cs =>
    match splitOnChar sep cs with
    | [] => if c = sep then [[], []] else [[c]]
    | w :: ws => if c = sep then [] :: w :: ws else (c :: w) :: ws

/-- One update of the `wordCount` object: bump the count of `w`, inserting
it at the end on first sight (JavaScript object insertion order; the
engine's claims do not depend on the numeric-key ordering quirk). -/
def bump (w : Str) : List (Str × Nat) → List (Str × Nat)
  | [] => [(w, 1)]
  | (k, n) :: rest => if k = w then (k, n + 1) :: rest else (k, n) :: bump w rest

/-- The `wordCount` frequency table built over the token list. -/
def countWords (ws : List Str) : List (Str × Nat) :=
  ws.foldl (fun acc w => bump w acc) []

/-- Stable insertion for the descending sort by count
(`.sort(([,a],[,b]) => b - a)`, a stable sort in modern engines). -/
def insertByCountDesc (x : Str × Nat) : List (Str × Nat) → List (Str × Nat)
  | [] => [x]
  | y :: ys => if y.2 ≤ x.2 then x :: y :: ys else y :: insertByCountDesc x ys

/-- Stable descending sort by count. -/
def sortByCountDesc : List (Str × Nat) → List (Str × Nat)
  | [] => []
  | x :: xs => insertByCountDesc x (sortByCountDesc xs)

/-- The stop-word set of `extractKeyTopics` in the main server document
(the source array passed to `new Set`, duplicates included). -/
def commonWords : List Str := [
  str "the", str "and", str "for", str "with", str "that", str "this", str "have", str "will", str "from", str "they",
  str "know", str "want", str "been", str "good", str "much", str "some", str "time", str "very", str "when", str "come",
  str "just", str "into", str "than", str "more", str "other", str "about", str "many", str "then", str "them", str "these",
  str "so", str "people", str "can", str "said", str "each", str "which", str "she", str "do", str "how", str "their",
  str "if", str "up", str "out", str "many", str "then", str "them", str "would", str "write", str "go", str "see",
  str "number", str "no", str "way", str "could", str "my", str "than", str "first", str "water", str "been", str "call",
  str "who", str "oil", str "sit", str "now", str "find", str "down", str "day", str "did", str "get", str "come",
  str "made", str "may", str "part", str "billion", str "million", str "dollars", str "year", str "years", str "continue", str "continues",
  str "continuing", str "remains", str "remain", str "reflecting", str "reflects", str "impact", str "strong", str "financial", str "markets", str "individuals",
  str "corporations", str "generosity", str "economy", str "force", str "major", str "key", str "part"]

/-- The stop-word set of `extractKeyTopics` in the second (related) server
document of the same file. -/
def commonWords2 : List Str := [
  str "the", str "and", str "for", str "with", str "that", str "this", str "have", str "will", str "from", str "they",
  str "know", str "want", str "been", str "good", str "much", str "some", str "time", str "very", str "when", str "come",
  str "just", str "into", str "than", str "more", str "other", str "about", str "many", str "then", str "them", str "these",
  str "so", str "people", str "can", str "said", str "each", str "which", str "she", str "do", str "how", str "their",
  str "if", str "up", str "out", str "many", str "then", str "them", str "would", str "write", str "go", str "see",
  str "number", str "no", str "way", str "could", str "my", str "than", str "first", str "water", str "been", str "call",
  str "who", str "oil", str "sit", str "now", str "find", str "down", str "day", str "did", str "get", str "come",
  str "made", str "may", str "part"]

/-- The `cleanContent` stage of `extractKeyTopics`: lower-case, replace
`[^\w\s]` by spaces, collapse whitespace runs, trim. -/
def cleanContentOf (content : Str) : Str :=
  trimWs (collapseWs ((content.map jsToLower).map
    (fun c => if jsIsWordChar c || jsIsSpace c then c else ' ')))

/-- The `words` stage of `extractKeyTopics`: split on whitespace (after the
collapse, runs of whitespace are single spaces) and discard tokens of
length ≤ 3 and stop-words. -/
def wordsOf (stopWords : List Str) (content : Str) : List Str :=
  (splitOnChar ' ' (cleanContentOf content)).filter
    (fun w => 3 < w.length && !(stopWords.contains w))

/-- The `topics` stage of `extractKeyTopics`: count, sort descending by
count, take `maxTopics`, keep the words. -/
def topicsOf (stopWords : List Str) (content : Str) (maxTopics : Nat) : List Str :=
  ((sortByCountDesc (countWords (wordsOf stopWords content))).take maxTopics).map Prod.fst

/-- Body of `extractKeyTopics`, parameterised by the stop-word set (the two
server documents differ only in that set): the staged pipeline above,
then padding with the fixed defaults. -/
def padTopics (topics : List Str) : List Str :=
  if topics.length = 0 then [str "content", str "information", str "strategies"]
  else if topics.length = 1 then topics ++ [str "strategies", str "success"]
  else if topics.length = 2 then topics ++ [str "success"]
  else topics

def extractKeyTopicsWith (stopWords : List Str) (content : Str) (maxTopics : Nat) : List Str :=
  padTopics (topicsOf stopWords content maxTopics)

/-- `extractKeyTopics` of the main server document. -/
def extractKeyTopics (content : Str) (maxTopics : Nat) : List Str :=
  extractKeyTopicsWith commonWords content maxTopics

/-- `extractKeyTopics` of the second server document. -/
def extractKeyTopics2 (content : Str) (maxTopics : Nat) : List Str :=
  extractKeyTopicsWith commonWords2 content maxTopics

/-- `ensureCompleteWord`.  The argument is an `Option` because the callers
index into the topic list (`topics[0]`), which in JavaScript yields
`undefined` past the end; `undefined` and strings shorter than 3 take the
`'content'` fallback branch. -/
def ensureCompleteWord (word : Option Str) : Str :=
  match word with
  | none => str "content"
  | some w =>
    if w.length < 3 then str "content"
    else if (str "for").isSuffixOf w then w.take (w.length - 3) ++ str "marketing"
    else if (str "ing").isSuffixOf w then w
    else if (str "ed").isSuffixOf w then w
    else if (str "er").isSuffixOf w then w
    else w

/-- JavaScript `a || b` for strings (empty string is falsy). -/
def orStr (s d : Str) : Str := if s = [] then d else s
/-- JavaScript `hay.includes(needle)`: `needle` occurs contiguously
somewhere in `hay`. -/
def jsIncludes : Str → Str → Bool
  | [], needle => needle.isPrefixOf []
  | c :: cs, needle => needle.isPrefixOf (c :: cs) || jsIncludes cs needle

/-- The category keyword lists of `detectContentType`, in object-key
enumeration order. -/
def contentKeywords : List (String × List Str) := [
  ("charitable", [str "charitable", str "donation", str "donations", str "giving", str "philanthropy", str "nonprofit", str "charity", str "fundraising"]),
  ("financial", [str "financial", str "investment", str "investing", str "money", str "finance", str "economic", str "economy", str "market", str "markets"]),
  ("business", [str "business", str "company", str "corporate", str "enterprise", str "startup", str "entrepreneur"]),
  ("technology", [str "technology", str "tech", str "software", str "app", str "digital", str "online", str "web", str "internet"]),
  ("health", [str "health", str "medical", str "wellness", str "fitness", str "nutrition", str "healthcare"]),
  ("education", [str "education", str "learning", str "teaching", str "school", str "university", str "course", str "training"])]

/-- Keyword-match score of one category: how many of its keywords occur as
substrings of the lower-cased content (`lowerContent.includes(keyword)`). -/
def catScore (content : Str) (kws : List Str) : Nat :=
  (kws.filter (fun k => jsIncludes (content.map jsToLower) k)).length

/-- `detectContentType`: score every category, reduce keeping the champion
only while it is strictly greater than the challenger
(`scores[a] > scores[b] ? a : b`), and return the winner when its score
reaches 2, else the user-selected type. -/
def detectContentType (content : Str) (userSelectedType : String) : String :=
  match contentKeywords with
  | [] => userSelectedType
  | e0 :: rest =>
    let best := rest.foldl
      (fun a b => if catScore content b.2 < catScore content a.2 then a else b) e0
    if 2 ≤ catScore content best.2 then best.1 else userSelectedType

/-- The three word lists loaded from `prohibited-words.json` (the data file
itself is not among the sources; the checker is verified for every possible
list contents). -/
structure ProhibitedWords where
  red_words : List Str
  yellow_words : List Str
  us_specific_terms : List Str

/-- JavaScript `array.join(', ')`. -/
def joinComma : List Str → Str
  | [] => []
  | [w] => w
  | w :: ws => w ++ str ", " ++ joinComma ws

/-- The `redWordsFound` list of the `/api/compliance/check` handler:
red words occurring case-insensitively as substrings of the content. -/
def redWordsFound (pw : ProhibitedWords) (content : Str) : List Str :=
  pw.red_words.filter (fun w => jsIncludes (content.map jsToLower) (w.map jsToLower))

/-- The `yellowWordsFound` list of the handler. -/
def yellowWordsFound (pw : ProhibitedWords) (content : Str) : List Str :=
  pw.yellow_words.filter (fun w => jsIncludes (content.map jsToLower) (w.map jsToLower))

/-- The `usTermsFound` list of the handler. -/
def usTermsFound (pw : ProhibitedWords) (content : Str) : List Str :=
  pw.us_specific_terms.filter (fun w => jsIncludes (content.map jsToLower) (w.map jsToLower))

/-- The `/api/compliance/check` handler: case-insensitive substring search
of the content against the three lists, one warning string per non-empty
match set, in the fixed order red, yellow, US-specific. -/
def checkCompliance (pw : ProhibitedWords) (content : Str) : List Str :=
  (if 0 < (redWordsFound pw content).length then
    [str "Red words found: " ++ joinComma (redWordsFound pw content)] else []) ++
  (if 0 < (yellowWordsFound pw content).length then
    [str "Yellow words found: " ++ joinComma (yellowWordsFound pw content)] else []) ++
  (if 0 < (usTermsFound pw content).length then
    [str "US-specific terms found: " ++ joinComma (usTermsFound pw content)] else [])

/-- Prefix match of a pattern at the head of a string, optionally
case-insensitive (the regex `i` flag, on the ASCII range). -/
def matchesAt (ci : Bool) : Str → Str → Bool
  | [], _ => true
  | _ :: _, [] => false
  | p :: ps, c :: cs =>
    (if ci then jsToLower p == jsToLower c else p == c) && matchesAt ci ps cs

/-- Global replacement of an alternation of literal patterns
(`s.replace(/p1|p2|…/g, rep)`, with or without the `i` flag): scan left to
right, at each position try the alternatives in order, on a match emit the
replacement and continue after the matched text.  The worker recurses on a
fuel argument initialised to the string length (enough for the whole scan),
keeping the definition structurally recursive. -/
def replaceAnyAux (ci : Bool) (pats : List Str) (rep : Str) : Nat → Str → Str
  | _, [] => []
  | 0, s => s
  | fuel + 1, c :: cs =>
    match pats.find? (fun q => !q.isEmpty && matchesAt ci q (c :: cs)) with
    | some q => rep ++ replaceAnyAux ci pats rep fuel ((c :: cs).drop q.length)
    | none => c :: replaceAnyAux ci pats rep fuel cs

def replaceAny (ci : Bool) (pats : List Str) (rep : Str) (s : Str) : Str :=
  replaceAnyAux ci pats rep s.length s

/-- One `.replace` call of a tone chain: the `i` flag, the literal
alternatives of the pattern, and the replacement string. -/
structure Rule where
  ci : Bool
  pats : List Str
  rep : Str
deriving DecidableEq

/-- Apply one rule. -/
def applyRule (s : Str) (r : Rule) : Str := replaceAny r.ci r.pats r.rep s

/-- Apply a chained `.replace(...)....replace(...)` sequence, in order. -/
def applyRules (rs : List Rule) (s : Str) : Str := rs.foldl applyRule s

/-- Template interpolation slots: a literal chunk, the capitalised main
topic (`mainTopic.charAt(0).toUpperCase() + mainTopic.slice(1)`), the main
topic, the secondary topic, the raw `targetAudience`, or `validAudience`. -/
inductive Piece where
  | lit (s : String)
  | capMain
  | mainT
  | secT
  | audR
  | audV
deriving DecidableEq

/-- The interpolation values available to a template. -/
structure Env where
  main : Str
  secondary : Str
  third : Str
  audRaw : Str
  audValid : Str

/-- `s.charAt(0).toUpperCase() + s.slice(1)`. -/
def capFirst : Str → Str
  | [] => []
  | c :: cs => jsToUpper c :: cs

/-- Value of one interpolation slot. -/
def pieceVal (env : Env) : Piece → Str
  | .lit s => str s
  | .capMain => capFirst env.main
  | .mainT => env.main
  | .secT => env.secondary
  | .audR => env.audRaw
  | .audV => env.audValid

/-- Rendering of a template literal: concatenation of its pieces. -/
def render (env : Env) (ps : List Piece) : Str :=
  (ps.map (pieceVal env)).flatten

open Piece

def titlesArticle : List (List Piece) := [
  [lit "The Complete Guide to ", capMain],
  [lit "The Ultimate ", capMain, lit " Guide for ", audR],
  [capMain, lit ": What Every ", audR, lit " Needs to Know"],
  [lit "How to Master ", capMain, lit " in 2024"],
  [lit "The Definitive Guide to ", capMain],
  [lit "Solving ", capMain, lit " Challenges: A ", audR, lit " Guide"],
  [lit "Common ", capMain, lit " Mistakes and How to Avoid Them"],
  [lit "The ", capMain, lit " Roadmap: From Beginner to Expert"],
  [lit "Unlock the Power of ", capMain],
  [capMain, lit " Strategies That Actually Work"],
  [lit "Transform Your ", secT, lit " with ", capMain],
  [capMain, lit " Best Practices for ", audR],
  [lit "The Future of ", capMain, lit ": Trends and Insights"],
  [capMain, lit " Fundamentals Every ", audR, lit " Should Master"]
]

def titlesBlog : List (List Piece) := [
  [lit "Why ", capMain, lit " Matters More Than Ever"],
  [lit "The Hidden Truth About ", capMain],
  [capMain, lit ": Tips and Tricks You'll Love"],
  [lit "Discover the Power of ", capMain],
  [capMain, lit ": Everything You've Been Missing"],
  [lit "How ", capMain, lit " Changed My Business"],
  [lit "The Real Story Behind ", capMain, lit " Success"],
  [lit "What I Learned About ", capMain, lit " the Hard Way"],
  [lit "The ", capMain, lit " Secret Nobody Talks About"],
  [lit "Is ", capMain, lit " Worth Your Time? Here's the Truth"],
  [capMain, lit ": The Good, the Bad, and the Ugly"],
  [lit "Ready to Level Up Your ", capMain, lit "?"],
  [capMain, lit ": Your Action Plan for Success"],
  [lit "Stop Struggling with ", capMain, lit " - Try This Instead"]
]

def titlesProduct : List (List Piece) := [
  [lit "Transform Your ", capMain, lit " Experience"],
  [lit "The Future of ", capMain, lit " is Here"],
  [lit "Revolutionary ", capMain, lit " Solutions"],
  [lit "Upgrade Your ", capMain, lit " Today"],
  [lit "Premium ", capMain, lit " for Modern Needs"],
  [lit "Introducing the Next Generation of ", capMain],
  [capMain, lit " Made Simple: Powerful Features, Easy Use"],
  [lit "The ", capMain, lit " Tool You've Been Waiting For"],
  [lit "Save Time and Money with Smart ", capMain],
  [lit "Boost Your ", secT, lit " with Advanced ", capMain],
  [lit "Professional ", capMain, lit " at an Affordable Price"],
  [lit "Why Choose Our ", capMain, lit " Over the Competition"],
  [lit "The ", capMain, lit " Difference: Quality You Can Trust"],
  [lit "Built for ", audR, lit ": The ", capMain, lit " Solution"]
]

def titlesService : List (List Piece) := [
  [lit "Professional ", capMain, lit " Services"],
  [lit "Expert ", capMain, lit " Solutions"],
  [lit "Trusted ", capMain, lit " Partners"],
  [lit "Quality ", capMain, lit " Guaranteed"],
  [lit "Your ", capMain, lit " Success Partner"],
  [lit "Custom ", capMain, lit " Solutions for ", audR],
  [lit "Full-Service ", capMain, lit " Support"],
  [lit "Dedicated ", capMain, lit " Team at Your Service"],
  [lit "Get More Value from Your ", capMain, lit " Investment"],
  [lit "Streamline Your ", secT, lit " with Professional ", capMain],
  [lit "Expert ", capMain, lit " Consultation and Implementation"],
  [capMain, lit " Services Tailored for ", audR],
  [lit "Proven ", capMain, lit " Methods for Business Growth"],
  [lit "Reliable ", capMain, lit " Support When You Need It Most"]
]

def titlesVideo : List (List Piece) := [
  [lit "The Ultimate ", capMain, lit " Video Guide"],
  [lit "Watch: Complete ", capMain, lit " Tutorial"],
  [capMain, lit ": Everything You Need to Know (Video)"],
  [lit "Master ", capMain, lit " in This Comprehensive Video"],
  [lit "Video Guide: ", capMain, lit " Best Practices"],
  [lit "Learn ", capMain, lit " Step-by-Step (Video Tutorial)"],
  [lit "Video Tutorial: ", capMain, lit " for ", audR],
  [lit "Complete ", capMain, lit " Video Course"],
  [lit "Must-Watch: ", capMain, lit " Video Guide"],
  [lit "Video: The Truth About ", capMain],
  [capMain, lit " Secrets Revealed (Video)"],
  [lit "Transform Your ", capMain, lit " with This Video"],
  [lit "Video: ", capMain, lit " Strategies That Work"],
  [lit "Watch and Learn: ", capMain, lit " Masterclass"]
]

def titlesEmail : List (List Piece) := [
  [lit "Email Marketing: ", capMain, lit " Best Practices"],
  [lit "The Complete ", capMain, lit " Email Guide"],
  [lit "Email Strategy: ", capMain, lit " for ", audR],
  [lit "Master Email ", capMain, lit " in 2024"],
  [lit "Email Marketing ", capMain, lit " That Converts"],
  [lit "Email Campaign: ", capMain, lit " Success Strategies"],
  [lit "Email Templates for ", capMain],
  [lit "Email Automation: ", capMain, lit " Workflows"],
  [lit "Boost Email Engagement with ", capMain],
  [lit "Email Subject Lines: ", capMain, lit " That Get Opens"],
  [lit "Email Content: ", capMain, lit " Best Practices"],
  [lit "Email ROI: ", capMain, lit " Strategies That Work"],
  [lit "Email Marketing ROI: ", capMain, lit " for Growth"],
  [lit "Email Success: ", capMain, lit " Case Studies"]
]

def titlesSocial : List (List Piece) := [
  [lit "Social Media ", capMain, lit " Strategy"],
  [lit "The Complete ", capMain, lit " Social Media Guide"],
  [lit "Social Media Marketing: ", capMain, lit " Best Practices"],
  [lit "Master Social Media ", capMain, lit " in 2024"],
  [lit "Social Media ", capMain, lit " for ", audR],
  [lit "Instagram ", capMain, lit " Strategy"],
  [lit "Facebook ", capMain, lit " Guide"],
  [lit "LinkedIn ", capMain, lit " Best Practices"],
  [lit "Boost Social Media Engagement with ", capMain],
  [lit "Social Media Content: ", capMain, lit " That Gets Shares"],
  [lit "Social Media Growth: ", capMain, lit " Strategies"],
  [lit "Social Media ROI: ", capMain, lit " That Converts"],
  [lit "Social Media Success: ", capMain, lit " Case Studies"],
  [lit "Social Media Marketing: ", capMain, lit " for Business Growth"]
]

def titlesLanding : List (List Piece) := [
  [lit "Landing Page ", capMain, lit " Optimization"],
  [lit "The Complete ", capMain, lit " Landing Page Guide"],
  [lit "Landing Page Design: ", capMain, lit " Best Practices"],
  [lit "Master Landing Page ", capMain, lit " in 2024"],
  [lit "Landing Page ", capMain, lit " for ", audR],
  [lit "Landing Page Conversion: ", capMain, lit " Strategies"],
  [lit "High-Converting Landing Page ", capMain],
  [lit "Landing Page Optimization: ", capMain, lit " Techniques"],
  [lit "Landing Page Design: ", capMain, lit " Principles"],
  [lit "Landing Page UX: ", capMain, lit " Best Practices"],
  [lit "Landing Page Copy: ", capMain, lit " That Converts"],
  [lit "Landing Page Performance: ", capMain, lit " Optimization"],
  [lit "Landing Page ROI: ", capMain, lit " Strategies"],
  [lit "Landing Page Success: ", capMain, lit " Case Studies"]
]

def titlesCharitable : List (List Piece) := [
  [lit "The Impact of ", capMain, lit ": A Complete Guide"],
  [lit "Understanding ", capMain, lit " in 2024"],
  [capMain, lit ": Trends and Insights for ", audR],
  [lit "The Future of ", capMain, lit ": What You Need to Know"],
  [capMain, lit " Statistics and Analysis"],
  [lit "How ", capMain, lit " is Changing the World"],
  [lit "The Power of ", capMain, lit ": Real Impact Stories"],
  [capMain, lit ": Making a Difference in 2024"],
  [lit "Everything You Need to Know About ", capMain],
  [capMain, lit ": A Comprehensive Overview"],
  [lit "The Complete Guide to ", capMain],
  [capMain, lit " Trends in 2024: What's New"],
  [lit "The State of ", capMain, lit ": Current Landscape"],
  [capMain, lit ": Key Insights and Opportunities"]
]

def titlesFinancial : List (List Piece) := [
  [capMain, lit ": Financial Insights and Analysis"],
  [lit "The Economics of ", capMain],
  [capMain, lit ": Market Trends and Opportunities"],
  [lit "Financial Impact of ", capMain, lit " in 2024"],
  [capMain, lit ": Investment and Growth Strategies"],
  [capMain, lit " Market Analysis: What You Need to Know"],
  [lit "The Financial Landscape of ", capMain],
  [capMain, lit ": Economic Trends and Forecasts"],
  [capMain, lit ": Strategic Financial Planning"],
  [lit "Maximizing Returns in ", capMain],
  [capMain, lit ": Financial Best Practices"],
  [capMain, lit ": Growth Opportunities and Strategies"],
  [lit "The Financial Future of ", capMain],
  [capMain, lit ": Investment Insights for ", audR]
]

def titleTable : List (String × List (List Piece)) := [
  ("article", titlesArticle),
  ("blog", titlesBlog),
  ("product", titlesProduct),
  ("service", titlesService),
  ("video", titlesVideo),
  ("email", titlesEmail),
  ("social", titlesSocial),
  ("landing", titlesLanding),
  ("charitable", titlesCharitable),
  ("financial", titlesFinancial)
]

def descsArticle : List (List Piece) := [
  [lit "Discover everything you need to know about ", mainT, lit " and ", secT, lit ". Expert insights, practical tips, and actionable strategies to help you succeed."],
  [lit "Learn the essential strategies for mastering ", mainT, lit ". From beginner basics to advanced techniques, this comprehensive guide covers it all."],
  [lit "Explore the latest trends and best practices in ", mainT, lit ". Get expert advice and real-world examples to improve your results."],
  [lit "Struggling with ", mainT, lit "? This comprehensive guide breaks down complex concepts into simple, actionable steps for ", audV, lit "."],
  [lit "Master ", mainT, lit " with proven methodologies and industry best practices. Perfect for ", audV, lit " looking to enhance their skills."],
  [lit "Transform your understanding of ", mainT, lit " with expert analysis, case studies, and practical implementation strategies."],
  [lit "Unlock the full potential of ", mainT, lit " with our detailed guide. Learn proven techniques that deliver measurable results for ", audV, lit "."],
  [lit "Navigate the complexities of ", mainT, lit " with confidence. This resource provides the knowledge and tools you need to excel."],
  [lit "Elevate your ", mainT, lit " expertise with comprehensive coverage of fundamentals, advanced techniques, and emerging trends."]
]

def descsBlog : List (List Piece) := [
  [lit "Uncover the secrets of ", mainT, lit " that most people miss. Practical advice, real stories, and actionable tips to transform your approach."],
  [lit "Dive deep into ", mainT, lit " with insights that will change how you think about ", secT, lit ". Expert analysis and practical takeaways."],
  [lit "Discover why ", mainT, lit " is crucial for success and how to implement it effectively. Real-world examples and proven strategies."],
  [lit "Follow the journey of ", mainT, lit " success through real stories and lessons learned. Practical insights for ", audV, lit " at every level."],
  [lit "Get behind-the-scenes access to ", mainT, lit " strategies that actually work. No fluff, just proven methods and honest advice."],
  [lit "Learn from the mistakes and triumphs of ", mainT, lit " implementation. Real experiences shared to help you avoid common pitfalls."],
  [lit "Challenge everything you thought you knew about ", mainT, lit ". Fresh perspectives and unconventional approaches for modern ", audV, lit "."],
  [lit "Explore the controversial side of ", mainT, lit " and discover what really works versus what's just hype."],
  [lit "Question traditional ", mainT, lit " methods and discover innovative approaches that deliver better results."]
]

def descsProduct : List (List Piece) := [
  [lit "Experience the next generation of ", mainT, lit " technology. Innovative features, superior performance, and unmatched reliability for modern needs."],
  [lit "Transform your workflow with our advanced ", mainT, lit " solution. Designed for professionals who demand excellence and efficiency."],
  [lit "Upgrade to premium ", mainT, lit " quality with cutting-edge features and intuitive design. Built for performance and user satisfaction."],
  [lit "Streamline your ", mainT, lit " processes with intelligent automation and powerful analytics. Built specifically for ", audV, lit "."],
  [lit "Maximize your ", mainT, lit " ROI with our comprehensive suite of tools and features. Everything you need in one integrated platform."],
  [lit "Accelerate your ", mainT, lit " success with proven technology that scales with your business."],
  [lit "Reduce costs and increase efficiency with our smart ", mainT, lit " solution. Designed to deliver measurable results for ", audV, lit "."],
  [lit "Get more done with less effort using our intuitive ", mainT, lit " platform. Powerful features wrapped in a user-friendly interface."],
  [lit "Invest in your future with our reliable ", mainT, lit " technology. Built to grow with your business and adapt to changing needs."]
]

def descsService : List (List Piece) := [
  [lit "Professional ", mainT, lit " services tailored to your specific needs. Expert consultation, reliable delivery, and ongoing support for your success."],
  [lit "Trust our experienced team for all your ", mainT, lit " requirements. Quality service, competitive pricing, and guaranteed satisfaction."],
  [lit "Partner with industry leaders in ", mainT, lit " solutions. Comprehensive services, expert guidance, and proven results for your business."],
  [lit "Custom ", mainT, lit " solutions designed specifically for ", audR, lit ". Personalized approach, expert execution, and measurable outcomes."],
  [lit "Full-service ", mainT, lit " support from strategy to implementation. Our dedicated team handles every aspect of your project."],
  [lit "End-to-end ", mainT, lit " services that take you from concept to completion. Professional expertise at every step of the process."],
  [lit "Maximize your ", mainT, lit " investment with our proven methodologies and experienced team. Results-driven approach for ", audR, lit "."],
  [lit "Optimize your ", mainT, lit " performance with data-driven insights and strategic guidance. Expert analysis and actionable recommendations."],
  [lit "Scale your ", mainT, lit " capabilities with our comprehensive support services. From consultation to ongoing optimization."]
]

def descsVideo : List (List Piece) := [
  [lit "Watch our comprehensive ", mainT, lit " video guide. Learn step-by-step techniques and best practices for ", audV, lit "."],
  [lit "Master ", mainT, lit " through our detailed video tutorial. Perfect for ", audV, lit " looking to enhance their skills visually."],
  [lit "Discover ", mainT, lit " strategies through engaging video content. Real examples and practical demonstrations for immediate application."],
  [lit "Learn ", mainT, lit " fundamentals through our video course. From basics to advanced techniques, all explained with clear visual examples."],
  [lit "Visual learning at its best: our ", mainT, lit " video series breaks down complex concepts into easy-to-follow tutorials."],
  [lit "Transform your understanding of ", mainT, lit " with our comprehensive video library. Expert instruction for ", audV, lit "."]
]

def descsEmail : List (List Piece) := [
  [lit "Master email marketing ", mainT, lit " with our comprehensive guide. Learn proven strategies that drive engagement and conversions for ", audV, lit "."],
  [lit "Discover email ", mainT, lit " best practices that actually work. From subject lines to content optimization, everything you need to know."],
  [lit "Transform your email campaigns with ", mainT, lit " strategies. Expert guidance for ", audV, lit " looking to improve email performance."],
  [lit "Learn email ", mainT, lit " techniques that boost open rates and click-through rates. Practical strategies for ", audV, lit "."],
  [lit "Master email automation ", mainT, lit " workflows. Streamline your email marketing and improve results with proven methodologies."],
  [lit "Optimize your email ", mainT, lit " for maximum ROI. Data-driven strategies and best practices for modern email marketing."]
]

def descsSocial : List (List Piece) := [
  [lit "Master social media ", mainT, lit " strategies that drive engagement and growth. Expert guidance for ", audV, lit " in the digital age."],
  [lit "Discover social media ", mainT, lit " best practices that actually work. From content creation to audience engagement, everything you need to know."],
  [lit "Transform your social media presence with ", mainT, lit " techniques. Proven strategies for ", audV, lit " looking to grow their online reach."],
  [lit "Learn platform-specific ", mainT, lit " strategies for Instagram, Facebook, LinkedIn, and more. Tailored approaches for ", audV, lit "."],
  [lit "Master social media ", mainT, lit " across all major platforms. Comprehensive strategies that work for every social media channel."],
  [lit "Optimize your social media ", mainT, lit " for maximum engagement and conversions. Data-driven approaches for modern social media marketing."]
]

def descsLanding : List (List Piece) := [
  [lit "Master landing page ", mainT, lit " optimization techniques. Learn proven strategies that convert visitors into customers for ", audV, lit "."],
  [lit "Discover landing page ", mainT, lit " best practices that drive conversions. From design to copy optimization, everything you need to know."],
  [lit "Transform your landing page performance with ", mainT, lit " strategies. Expert guidance for ", audV, lit " looking to improve conversion rates."],
  [lit "Learn landing page ", mainT, lit " techniques that boost conversion rates. Practical strategies for ", audV, lit " in competitive markets."],
  [lit "Master landing page ", mainT, lit " for maximum ROI. Data-driven optimization strategies and best practices for modern landing pages."],
  [lit "Optimize your landing page ", mainT, lit " for better user experience and higher conversions. Proven methodologies for ", audV, lit "."]
]

def descsCharitable : List (List Piece) := [
  [lit "Discover the latest trends and insights in ", mainT, lit ". Learn about the impact of charitable giving and how it's shaping our communities."],
  [lit "Explore the world of ", mainT, lit " and understand its significance in today's society. Expert analysis and real-world impact stories."],
  [lit "Learn about the power of ", mainT, lit " and how it's making a difference. Comprehensive coverage of trends, statistics, and success stories."],
  [lit "Understand the real impact of ", mainT, lit " on communities and individuals. Data-driven insights and compelling stories of change."],
  [lit "Discover how ", mainT, lit " is transforming lives and communities. Expert analysis of trends, challenges, and opportunities."],
  [lit "Explore the significance of ", mainT, lit " in modern society. Learn about its economic and social impact on our world."],
  [lit "Get comprehensive insights into ", mainT, lit " and its role in society. Expert analysis, statistics, and real-world examples."],
  [lit "Master the fundamentals of ", mainT, lit " with our detailed guide. From basic concepts to advanced strategies and impact measurement."],
  [lit "Transform your understanding of ", mainT, lit " with expert analysis, case studies, and practical insights for ", audV, lit "."]
]

def descsFinancial : List (List Piece) := [
  [lit "Discover the financial implications of ", mainT, lit " and its impact on the economy. Expert analysis and market insights for ", audV, lit "."],
  [lit "Learn about the economic aspects of ", mainT, lit " and how it affects financial markets and investment opportunities."],
  [lit "Explore the financial landscape of ", mainT, lit " with comprehensive analysis of trends, opportunities, and market dynamics."],
  [lit "Understand the market dynamics of ", mainT, lit " and its financial impact. Expert insights for investors and financial professionals."],
  [lit "Get detailed analysis of ", mainT, lit " from a financial perspective. Market trends, investment opportunities, and economic impact."],
  [lit "Master the financial aspects of ", mainT, lit " with expert guidance and comprehensive market analysis for ", audV, lit "."]
]

def descTable : List (String × List (List Piece)) := [
  ("article", descsArticle),
  ("blog", descsBlog),
  ("product", descsProduct),
  ("service", descsService),
  ("video", descsVideo),
  ("email", descsEmail),
  ("social", descsSocial),
  ("landing", descsLanding),
  ("charitable", descsCharitable),
  ("financial", descsFinancial)
]

def socialsArticle : List (List Piece) := [
  [lit "ğŸ“š Just published: The ultimate guide to ", mainT, lit "! Whether you're a beginner or expert, this comprehensive article has something for everyone. #", mainT, lit " #ContentMarketing"],
  [lit "ğŸ¯ Want to master ", mainT, lit "? Our latest article breaks down everything you need to know, from basics to advanced strategies. Check it out! #", mainT],
  [lit "ğŸ’¡ New insights on ", mainT, lit "! Discover proven strategies and expert tips that will transform your approach. Don't miss this! #", mainT, lit " #Tips"],
  [lit "ğŸ” Struggling with ", mainT, lit "? Our new article reveals the most common mistakes and how to avoid them. Essential reading for ", audV, lit "! #", mainT, lit " #Tips"],
  [lit "ğŸ“– Just released: The complete ", mainT, lit " roadmap from beginner to expert. Perfect for ", audV, lit " looking to level up their skills! #", mainT, lit " #Learning"],
  [lit "ğŸ“ New article alert! Master ", mainT, lit " with our step-by-step guide. From fundamentals to advanced techniques, we've got you covered. #", mainT, lit " #Education"],
  [lit "ğŸš€ Transform your ", mainT, lit " results with our latest article! Real strategies that actually work, backed by expert analysis. #", mainT, lit " #Results"],
  [lit "ğŸ’ª Ready to excel in ", mainT, lit "? Our comprehensive guide shows you exactly how to implement proven strategies for success. #", mainT, lit " #Success"],
  [lit "ğŸ“ˆ Boost your ", mainT, lit " performance with our expert insights. Learn from industry leaders and avoid common pitfalls. #", mainT, lit " #Performance"]
]

def socialsBlog : List (List Piece) := [
  [lit "ğŸ”¥ Hot off the press: The truth about ", mainT, lit " that nobody talks about! Real insights, practical advice, and actionable takeaways. #", mainT, lit " #Blog"],
  [lit "ğŸš€ Just dropped: Everything you need to know about ", mainT, lit "! From beginner tips to expert strategies, we've got you covered. #", mainT, lit " #Learning"],
  [lit "âœ¨ New blog alert! Discover the secrets of ", mainT, lit " and how to implement them effectively. Your success starts here! #", mainT, lit " #Success"],
  [lit "ğŸ“– The real story behind ", mainT, lit " success! Learn from real experiences and avoid the mistakes others have made. #", mainT, lit " #Stories"],
  [lit "ğŸ­ What I learned about ", mainT, lit " the hard way - and how you can avoid the same pitfalls. Honest insights from the trenches! #", mainT, lit " #Lessons"],
  [lit "ğŸ” Behind the scenes: How ", mainT, lit " changed my business and what you can learn from it. Real results, real stories. #", mainT, lit " #BehindTheScenes"],
  [lit "ğŸ¤” Is ", mainT, lit " worth your time? Here's the honest truth that most people won't tell you. #", mainT, lit " #Truth"],
  [lit "ğŸ’­ The ", mainT, lit " secret nobody talks about - and why it matters for ", audV, lit ". You won't believe what we discovered! #", mainT, lit " #Secrets"],
  [lit "â“ Question everything you thought you knew about ", mainT, lit ". Fresh perspectives that challenge conventional wisdom. #", mainT, lit " #Perspectives"]
]

def socialsProduct : List (List Piece) := [
  [lit "ğŸ†• Introducing our revolutionary ", mainT, lit " solution! Experience the future of technology with cutting-edge features and unmatched performance. #", mainT, lit " #Innovation"],
  [lit "âš¡ Transform your workflow with our advanced ", mainT, lit " platform! Designed for professionals who demand excellence. #", mainT, lit " #Productivity"],
  [lit "ğŸ‰ Game-changing ", mainT, lit " technology is here! Upgrade your experience with premium features and intuitive design. #", mainT, lit " #Technology"],
  [lit "ğŸ”§ The ", mainT, lit " tool you've been waiting for is finally here! Powerful features, easy use, designed for ", audR, lit ". #", mainT, lit " #Tools"],
  [lit "âš™ï¸ Streamline your ", mainT, lit " processes with intelligent automation. Built specifically for modern business needs. #", mainT, lit " #Automation"],
  [lit "ğŸ“Š Maximize your ", mainT, lit " ROI with our comprehensive suite. Everything you need in one integrated platform. #", mainT, lit " #ROI"],
  [lit "ğŸ’° Save time and money with smart ", mainT, lit " solutions. Designed to deliver measurable results for ", audR, lit ". #", mainT, lit " #Savings"],
  [lit "ğŸ¯ Get more done with less effort using our intuitive ", mainT, lit " platform. Powerful features wrapped in a user-friendly interface. #", mainT, lit " #Efficiency"],
  [lit "ğŸ† Why choose our ", mainT, lit " over the competition? Quality you can trust, backed by proven results. #", mainT, lit " #Quality"]
]

def socialsService : List (List Piece) := [
  [lit "ğŸ› ï¸ Professional ", mainT, lit " services that deliver results! Expert consultation, reliable delivery, and ongoing support. #", mainT, lit " #Services"],
  [lit "ğŸ¤ Trust our experienced team for all your ", mainT, lit " needs! Quality service, competitive pricing, guaranteed satisfaction. #", mainT, lit " #Professional"],
  [lit "ğŸ’¼ Partner with industry leaders in ", mainT, lit " solutions! Comprehensive services and proven results for your business. #", mainT, lit " #Partnership"],
  [lit "ğŸ¯ Custom ", mainT, lit " solutions designed specifically for ", audR, lit ". Personalized approach, expert execution, measurable outcomes. #", mainT, lit " #Custom"],
  [lit "ğŸ”§ Full-service ", mainT, lit " support from strategy to implementation. Our dedicated team handles every aspect of your project. #", mainT, lit " #FullService"],
  [lit "ğŸ“‹ End-to-end ", mainT, lit " services that take you from concept to completion. Professional expertise at every step. #", mainT, lit " #EndToEnd"],
  [lit "ğŸ“ˆ Maximize your ", mainT, lit " investment with our proven methodologies. Results-driven approach for ", audR, lit ". #", mainT, lit " #Investment"],
  [lit "ğŸ“Š Optimize your ", mainT, lit " performance with data-driven insights. Expert analysis and actionable recommendations. #", mainT, lit " #Optimization"],
  [lit "ğŸš€ Scale your ", mainT, lit " capabilities with our comprehensive support. From consultation to ongoing optimization. #", mainT, lit " #Scaling"]
]

def socialsVideo : List (List Piece) := [
  [lit "ğŸ¥ New video alert! Master ", mainT, lit " with our comprehensive tutorial. Step-by-step guidance for ", audV, lit "! #", mainT, lit " #Video"],
  [lit "ğŸ“¹ Just uploaded: The complete ", mainT, lit " video guide! Learn everything you need to know with clear visual examples. #", mainT, lit " #Tutorial"],
  [lit "ğŸ¬ Watch and learn: ", mainT, lit " strategies that actually work! Real examples and practical demonstrations. #", mainT, lit " #Learning"],
  [lit "ğŸ“š Visual learning at its best! Our ", mainT, lit " video series breaks down complex concepts into easy-to-follow tutorials. #", mainT, lit " #Education"],
  [lit "ğŸ“ From beginner to expert: Master ", mainT, lit " through our comprehensive video course. Perfect for ", audV, lit "! #", mainT, lit " #Course"],
  [lit "ğŸ’¡ Transform your understanding of ", mainT, lit " with our video library. Expert instruction with visual examples. #", mainT, lit " #Expertise"],
  [lit "ğŸ”¥ Must-watch: The truth about ", mainT, lit " revealed in our latest video! Real insights you won't find anywhere else. #", mainT, lit " #Insights"],
  [lit "âœ¨ Video tutorial: ", mainT, lit " secrets that will change how you approach everything! Don't miss this one. #", mainT, lit " #Secrets"],
  [lit "ğŸš€ Level up your ", mainT, lit " skills with our video masterclass! Professional techniques made simple. #", mainT, lit " #Masterclass"]
]

def socialsEmail : List (List Piece) := [
  [lit "ğŸ“§ Email marketing mastery: ", mainT, lit " strategies that drive engagement and conversions! Essential for ", audV, lit ". #", mainT, lit " #EmailMarketing"],
  [lit "ğŸ“¨ Discover email ", mainT, lit " best practices that actually work! From subject lines to content optimization. #", mainT, lit " #Email"],
  [lit "ğŸ“¬ Transform your email campaigns with ", mainT, lit " techniques! Expert guidance for better performance. #", mainT, lit " #Campaigns"],
  [lit "ğŸ“Š Boost your email ", mainT, lit " performance! Learn techniques that increase open rates and click-through rates. #", mainT, lit " #EmailROI"],
  [lit "âš¡ Master email automation ", mainT, lit " workflows! Streamline your email marketing for better results. #", mainT, lit " #Automation"],
  [lit "ğŸ¯ Optimize your email ", mainT, lit " for maximum ROI! Data-driven strategies for modern email marketing. #", mainT, lit " #Optimization"],
  [lit "ğŸ“ˆ Email engagement secrets: ", mainT, lit " strategies that get your emails opened and clicked! #", mainT, lit " #Engagement"],
  [lit "ğŸ’Œ Email subject line mastery: ", mainT, lit " techniques that boost open rates! #", mainT, lit " #SubjectLines"],
  [lit "ğŸ“‹ Email content optimization: ", mainT, lit " best practices for higher conversions! #", mainT, lit " #Content"]
]

def socialsSocial : List (List Piece) := [
  [lit "ğŸ“± Social media mastery: ", mainT, lit " strategies that drive engagement and growth! Essential for ", audV, lit ". #", mainT, lit " #SocialMedia"],
  [lit "ğŸ“² Discover social media ", mainT, lit " best practices that actually work! From content creation to audience engagement. #", mainT, lit " #Social"],
  [lit "ğŸ“¸ Transform your social media presence with ", mainT, lit " techniques! Proven strategies for growth. #", mainT, lit " #Growth"],
  [lit "ğŸ“· Instagram ", mainT, lit " strategies that get results! Platform-specific techniques for better engagement. #", mainT, lit " #Instagram"],
  [lit "ğŸ“˜ Facebook ", mainT, lit " guide: Best practices for maximum reach and engagement! #", mainT, lit " #Facebook"],
  [lit "ğŸ’¼ LinkedIn ", mainT, lit " strategies for professional networking! Tailored approaches for business growth. #", mainT, lit " #LinkedIn"],
  [lit "ğŸ”¥ Boost your social media engagement with ", mainT, lit "! Proven techniques that get your content shared. #", mainT, lit " #Engagement"],
  [lit "ğŸ“ˆ Social media growth: ", mainT, lit " strategies that expand your reach! #", mainT, lit " #Growth"],
  [lit "ğŸ¯ Social media ROI: ", mainT, lit " techniques that convert followers into customers! #", mainT, lit " #ROI"]
]

def socialsLanding : List (List Piece) := [
  [lit "ğŸ¯ Landing page mastery: ", mainT, lit " optimization techniques that convert visitors into customers! #", mainT, lit " #LandingPage"],
  [lit "ğŸ“„ Discover landing page ", mainT, lit " best practices that drive conversions! From design to copy optimization. #", mainT, lit " #Landing"],
  [lit "ğŸš€ Transform your landing page performance with ", mainT, lit " strategies! Expert guidance for better conversions. #", mainT, lit " #Performance"],
  [lit "ğŸ’° Boost your conversion rates with ", mainT, lit " landing page techniques! Practical strategies for ", audV, lit ". #", mainT, lit " #Conversions"],
  [lit "ğŸ“Š Landing page ROI: ", mainT, lit " optimization strategies for maximum returns! #", mainT, lit " #ROI"],
  [lit "ğŸ¨ Landing page design: ", mainT, lit " principles that improve user experience and conversions! #", mainT, lit " #Design"],
  [lit "âš¡ Landing page performance: ", mainT, lit " optimization techniques that work! #", mainT, lit " #Performance"],
  [lit "ğŸ“ˆ Landing page success: ", mainT, lit " case studies and proven strategies! #", mainT, lit " #Success"],
  [lit "ğŸ¯ High-converting landing pages: ", mainT, lit " strategies that get results! #", mainT, lit " #Results"]
]

def socialsCharitable : List (List Piece) := [
  [lit "ğŸ’ New insights on ", mainT, lit "! Discover the impact of charitable giving and how it's changing lives. #", mainT, lit " #CharitableGiving"],
  [lit "ğŸ“Š Just published: The latest statistics on ", mainT, lit " and its impact on communities. Essential reading! #", mainT, lit " #Impact"],
  [lit "ğŸ¯ Understanding ", mainT, lit ": How charitable giving is making a difference in 2024. #", mainT, lit " #Philanthropy"],
  [lit "ğŸŒŸ The power of ", mainT, lit ": Real stories of how charitable giving transforms communities. #", mainT, lit " #Stories"],
  [lit "ğŸ“ˆ Discover the trends in ", mainT, lit " and how they're shaping the future of philanthropy. #", mainT, lit " #Trends"],
  [lit "ğŸ’¡ Learn about the significance of ", mainT, lit " in today's society. Expert analysis and insights. #", mainT, lit " #Insights"],
  [lit "ğŸ“š Everything you need to know about ", mainT, lit ": A comprehensive guide to charitable giving. #", mainT, lit " #Guide"],
  [lit "ğŸ“ Master the fundamentals of ", mainT, lit " with our detailed analysis. From basics to advanced insights. #", mainT, lit " #Education"],
  [lit "ğŸ” Explore the world of ", mainT, lit " and understand its role in modern philanthropy. #", mainT, lit " #Philanthropy"]
]

def socialsFinancial : List (List Piece) := [
  [lit "ğŸ’° New analysis: The financial impact of ", mainT, lit " on the economy. Expert insights for investors. #", mainT, lit " #Finance"],
  [lit "ğŸ“Š Just released: Economic analysis of ", mainT, lit " and its market implications. #", mainT, lit " #Economics"],
  [lit "ğŸ¯ Understanding the financial landscape of ", mainT, lit ": Market trends and opportunities. #", mainT, lit " #Markets"],
  [lit "ğŸ“ˆ Discover the market dynamics of ", mainT, lit " and investment opportunities. #", mainT, lit " #Investment"],
  [lit "ğŸ’¼ Financial insights on ", mainT, lit ": How it affects markets and economic growth. #", mainT, lit " #Growth"],
  [lit "ğŸ“‹ Expert analysis of ", mainT, lit " from a financial perspective. Market trends and forecasts. #", mainT, lit " #Analysis"]
]

def socialTable : List (String × List (List Piece)) := [
  ("article", socialsArticle),
  ("blog", socialsBlog),
  ("product", socialsProduct),
  ("service", socialsService),
  ("video", socialsVideo),
  ("email", socialsEmail),
  ("social", socialsSocial),
  ("landing", socialsLanding),
  ("charitable", socialsCharitable),
  ("financial", socialsFinancial)
]

/-- Emoji alternatives stripped by the professional title tone (the
character sequences exactly as they stand in the source file). -/
def titleEmojiPats : List Str := [str "ğŸ”¥", str "ğŸš€", str "âœ¨", str "ğŸ’¡", str "ğŸ¯"]

/-- The professional tone chain of generateTitles. -/
def titleRulesProfessional : List Rule := [
  Rule.mk false [str "!"] (str "."),
  Rule.mk false titleEmojiPats (str ""),
  Rule.mk false [str "Complete Guide"] (str "Comprehensive Guide"),
  Rule.mk false [str "Ultimate"] (str "Definitive"),
  Rule.mk false [str "Master"] (str "Excel in"),
  Rule.mk false [str "Tips and Tricks"] (str "Proven Strategies"),
  Rule.mk false [str "Awesome", str "Amazing"] (str "Exceptional"),
  Rule.mk false [str "Level Up"] (str "Optimize")
]

/-- The casual tone chain of generateTitles. -/
def titleRulesCasual : List Rule := [
  Rule.mk false [str "Professional", str "Expert", str "Trusted", str "Quality"] (str "Awesome"),
  Rule.mk false [str "Revolutionary", str "Premium"] (str "Amazing"),
  Rule.mk false [str "Transform", str "Upgrade"] (str "Level Up"),
  Rule.mk false [str "Complete Guide"] (str "Complete Guide"),
  Rule.mk false [str "Ultimate"] (str "Best"),
  Rule.mk false [str "Master"] (str "Get Good at"),
  Rule.mk false [str "Comprehensive"] (str "Complete"),
  Rule.mk false [str "Essential"] (str "Important"),
  Rule.mk false [str "Definitive"] (str "Best"),
  Rule.mk false [str "Excel in"] (str "Get Good at")
]

/-- The friendly tone chain of generateTitles. -/
def titleRulesFriendly : List Rule := [
  Rule.mk false [str "Professional", str "Expert"] (str "Friendly"),
  Rule.mk false [str "Revolutionary"] (str "Game-Changing"),
  Rule.mk false [str "Transform"] (str "Improve"),
  Rule.mk false [str "Complete Guide"] (str "Friendly Guide to"),
  Rule.mk false [str "Ultimate"] (str "Best"),
  Rule.mk false [str "Master"] (str "Learn"),
  Rule.mk false [str "Comprehensive"] (str "Complete"),
  Rule.mk false [str "Definitive"] (str "Best"),
  Rule.mk false [str "Excel in"] (str "Learn")
]

/-- The authoritative tone chain of generateTitles. -/
def titleRulesAuthoritative : List Rule := [
  Rule.mk false [str "Tips and Tricks"] (str "Proven Strategies"),
  Rule.mk false [str "Everything You've Been Missing"] (str "Critical Insights"),
  Rule.mk false [str "What You Need to Know"] (str "Essential Knowledge"),
  Rule.mk false [str "Complete Guide"] (str "Expert Guide to"),
  Rule.mk false [str "Ultimate"] (str "Definitive"),
  Rule.mk false [str "Master"] (str "Master"),
  Rule.mk false [str "Comprehensive"] (str "Comprehensive"),
  Rule.mk false [str "Essential"] (str "Essential"),
  Rule.mk false [str "Get Good at"] (str "Master"),
  Rule.mk false [str "Learn"] (str "Master")
]

/-- The professional tone chain of generateDescriptions. -/
def descRulesProfessional : List Rule := [
  Rule.mk true [str "awesome", str "amazing", str "incredible"] (str "exceptional"),
  Rule.mk true [str "transform"] (str "optimize"),
  Rule.mk true [str "secrets"] (str "insights"),
  Rule.mk true [str "struggling"] (str "facing challenges with"),
  Rule.mk true [str "unlock"] (str "access")
]

/-- The casual tone chain of generateDescriptions. -/
def descRulesCasual : List Rule := [
  Rule.mk true [str "Professional"] (str "Awesome"),
  Rule.mk true [str "Expert"] (str "Pro"),
  Rule.mk true [str "comprehensive"] (str "complete"),
  Rule.mk true [str "strategies"] (str "tips"),
  Rule.mk true [str "optimize"] (str "level up"),
  Rule.mk true [str "exceptional"] (str "amazing"),
  Rule.mk true [str "insights"] (str "secrets")
]

/-- The friendly tone chain of generateDescriptions. -/
def descRulesFriendly : List Rule := [
  Rule.mk true [str "Professional"] (str "Friendly"),
  Rule.mk true [str "Expert"] (str "Helpful"),
  Rule.mk true [str "secrets"] (str "tips"),
  Rule.mk true [str "transform"] (str "improve"),
  Rule.mk true [str "struggling"] (str "having trouble with"),
  Rule.mk true [str "unlock"] (str "discover")
]

/-- The authoritative tone chain of generateDescriptions. -/
def descRulesAuthoritative : List Rule := [
  Rule.mk true [str "tips"] (str "proven strategies"),
  Rule.mk true [str "helpful"] (str "expert"),
  Rule.mk true [str "improve"] (str "optimize"),
  Rule.mk true [str "secrets"] (str "critical insights"),
  Rule.mk true [str "having trouble"] (str "facing challenges"),
  Rule.mk true [str "discover"] (str "access")
]

/-- The professional tone chain of generateSocialCopy. -/
def socialRulesProfessional : List Rule := [
  Rule.mk false [str "ğŸ”¥", str "ğŸš€", str "âœ¨", str "ğŸ‰"] (str "ğŸ“Š"),
  Rule.mk false [str "Hot off the press"] (str "New publication"),
  Rule.mk false [str "Just dropped"] (str "Recently published"),
  Rule.mk false [str "Game-changing"] (str "Innovative"),
  Rule.mk false [str "revolutionary"] (str "advanced"),
  Rule.mk false [str "secrets"] (str "insights"),
  Rule.mk false [str "ultimate guide"] (str "comprehensive guide"),
  Rule.mk false [str "Don't miss this!"] (str "Essential reading."),
  Rule.mk false [str "Check it out!"] (str "Learn more."),
  Rule.mk false [str "Struggling"] (str "Facing challenges with"),
  Rule.mk false [str "Ready to excel"] (str "Excel in"),
  Rule.mk false [str "Boost your"] (str "Enhance your")
]

/-- The casual tone chain of generateSocialCopy. -/
def socialRulesCasual : List Rule := [
  Rule.mk false [str "ğŸ“Š"] (str "ğŸ”¥"),
  Rule.mk true [str "Professional"] (str "Awesome"),
  Rule.mk true [str "Expert"] (str "Pro"),
  Rule.mk true [str "comprehensive"] (str "complete"),
  Rule.mk true [str "strategies"] (str "tips"),
  Rule.mk true [str "insights"] (str "secrets"),
  Rule.mk false [str "New publication"] (str "Hot off the press"),
  Rule.mk false [str "Recently published"] (str "Just dropped"),
  Rule.mk false [str "Innovative"] (str "Game-changing"),
  Rule.mk false [str "advanced"] (str "revolutionary"),
  Rule.mk false [str "Facing challenges with"] (str "Struggling with"),
  Rule.mk false [str "Excel in"] (str "Get good at"),
  Rule.mk false [str "Enhance your"] (str "Boost your")
]

/-- The friendly tone chain of generateSocialCopy. -/
def socialRulesFriendly : List Rule := [
  Rule.mk true [str "Professional"] (str "Friendly"),
  Rule.mk true [str "Expert"] (str "Helpful"),
  Rule.mk true [str "secrets"] (str "tips"),
  Rule.mk true [str "revolutionary"] (str "amazing"),
  Rule.mk true [str "Game-changing"] (str "Helpful"),
  Rule.mk false [str "Struggling"] (str "Having trouble with"),
  Rule.mk false [str "Ready to excel"] (str "Ready to learn"),
  Rule.mk false [str "Boost your"] (str "Improve your"),
  Rule.mk false [str "Transform your"] (str "Improve your")
]

/-- The authoritative tone chain of generateSocialCopy. -/
def socialRulesAuthoritative : List Rule := [
  Rule.mk true [str "tips"] (str "proven strategies"),
  Rule.mk true [str "helpful"] (str "expert"),
  Rule.mk true [str "secrets"] (str "critical insights"),
  Rule.mk true [str "amazing"] (str "exceptional"),
  Rule.mk true [str "awesome"] (str "professional"),
  Rule.mk false [str "Having trouble with"] (str "Facing challenges with"),
  Rule.mk false [str "Ready to learn"] (str "Ready to master"),
  Rule.mk false [str "Improve your"] (str "Optimize your"),
  Rule.mk false [str "Get good at"] (str "Master")
]

/-- The switch(tone) dispatch of generateTitles; unknown tones fall through with no transformation. -/
def titleToneRules : String → List Rule
  | "professional" => titleRulesProfessional
  | "casual" => titleRulesCasual
  | "friendly" => titleRulesFriendly
  | "authoritative" => titleRulesAuthoritative
  | _ => []

/-- The switch(tone) dispatch of generateDescriptions; unknown tones fall through with no transformation. -/
def descToneRules : String → List Rule
  | "professional" => descRulesProfessional
  | "casual" => descRulesCasual
  | "friendly" => descRulesFriendly
  | "authoritative" => descRulesAuthoritative
  | _ => []

/-- The switch(tone) dispatch of generateSocialCopy; unknown tones fall through with no transformation. -/
def socialToneRules : String → List Rule
  | "professional" => socialRulesProfessional
  | "casual" => socialRulesCasual
  | "friendly" => socialRulesFriendly
  | "authoritative" => socialRulesAuthoritative
  | _ => []

/-- Association-list lookup modelling `allTemplates[key]` on an object
literal (own keys only). -/
def jsLookup : List (String × α) → String → Option α
  | [], _ => none
  | (k, v) :: rest, key => if key = k then some v else jsLookup rest key

/-- `allTemplates[detectedType] || allTemplates[contentType] ||
allTemplates['article']`. -/
def jsLookupOr (table : List (String × α)) (k1 k2 : String) (dflt : α) : α :=
  match jsLookup table k1 with
  | some v => v
  | none =>
    match jsLookup table k2 with
    | some v => v
    | none => dflt

/-- `validAudience`: `targetAudience && targetAudience.trim() ?
targetAudience.trim() : 'professionals'`. -/
def validAudienceOf (ta : Str) : Str :=
  if ta ≠ [] ∧ trimWs ta ≠ [] then trimWs ta else str "professionals"

/-- Topic environment of `generateTitles`: the three topics with the
source's fallbacks and the raw audience.  (`validAudience` is not computed
there and no title template references it; `thirdTopic` is computed but
referenced by no template.) -/
def titleTopics (content : Str) : List Str := extractKeyTopics content 3

def titleEnv (content : Str) (targetAudience : String) : Env :=
  { main := orStr (ensureCompleteWord (titleTopics content)[0]?) (str "content")
    secondary := orStr (ensureCompleteWord (titleTopics content)[1]?) (str "strategies")
    third := orStr (ensureCompleteWord (titleTopics content)[2]?) (str "success")
    audRaw := str targetAudience
    audValid := [] }

/-- Topic environment of `generateDescriptions`. -/
def descTopics (content : Str) : List Str := extractKeyTopics content 2

def descEnv (content : Str) (targetAudience : String) : Env :=
  { main := orStr (ensureCompleteWord (descTopics content)[0]?) (str "content")
    secondary := orStr (ensureCompleteWord (descTopics content)[1]?) (str "information")
    third := []
    audRaw := str targetAudience
    audValid := validAudienceOf (str targetAudience) }

/-- Topic environment of `generateSocialCopy`. -/
def socialTopics (content : Str) : List Str := extractKeyTopics content 2

def socialEnv (content : Str) (targetAudience : String) : Env :=
  { main := orStr (ensureCompleteWord (socialTopics content)[0]?) (str "content")
    secondary := orStr (ensureCompleteWord (socialTopics content)[1]?) (str "strategies")
    third := []
    audRaw := str targetAudience
    audValid := validAudienceOf (str targetAudience) }

/-- The interpolated title bucket `allTemplates[detectedType] ||
allTemplates[contentType] || allTemplates['article']` of `generateTitles`. -/
def titleBucket (content : Str) (contentType targetAudience : String) : List Str :=
  (jsLookupOr titleTable (detectContentType content contentType) contentType titlesArticle).map
    (render (titleEnv content targetAudience))

/-- The interpolated description bucket of `generateDescriptions`. -/
def descBucket (content : Str) (contentType targetAudience : String) : List Str :=
  (jsLookupOr descTable (detectContentType content contentType) contentType descsArticle).map
    (render (descEnv content targetAudience))

/-- The interpolated social-copy bucket of `generateSocialCopy`. -/
def socialBucket (content : Str) (contentType targetAudience : String) : List Str :=
  (jsLookupOr socialTable (detectContentType content contentType) contentType socialsArticle).map
    (render (socialEnv content targetAudience))

/-- Hashtag body rewriting: with no underscore and no capital, capitalise
the first letter; otherwise split on capital boundaries and re-join in
title case. -/
def transformTag (tag : Str) : Str :=
  if !tag.contains '_' && !tag.any (fun c => 'A' ≤ c && c ≤ 'Z') then
    capFirst tag
  else
    ((splitOnChar ' ' (trimWs (tag.flatMap
        (fun c => if 'A' ≤ c && c ≤ 'Z' then [' ', c] else [c])))).map
      (fun w => match w with
        | [] => []
        | c :: cs => jsToUpper c :: cs.map jsToLower)).flatten

/-- `formatHashtags`: rewrite the body of every hashtag occurrence through
`transformTag`.  The worker recurses on a fuel argument initialised to the
string length. -/
def formatHashtagsAux : Nat → Str → Str
  | _, [] => []
  | 0, s => s
  | fuel + 1, c :: rest =>
    if c = '#' ∧ rest.takeWhile jsIsWordChar ≠ [] then
      ('#' :: transformTag (rest.takeWhile jsIsWordChar)) ++
        formatHashtagsAux fuel (rest.dropWhile jsIsWordChar)
    else
      c :: formatHashtagsAux fuel rest

def formatHashtags (s : Str) : Str := formatHashtagsAux s.length s

/-- `generateTitles`, with the outcome of the unseeded shuffle of the
bucket passed in as `shuffled`: take the first 5 shuffled templates and
apply the tone chain to each. -/
def generateTitles (tone : String) (shuffled : List Str) : List Str :=
  (shuffled.take 5).map (applyRules (titleToneRules tone))

/-- `generateDescriptions`, with the shuffle outcome passed in: take 3 and
apply the tone chain. -/
def generateDescriptions (tone : String) (shuffled : List Str) : List Str :=
  (shuffled.take 3).map (applyRules (descToneRules tone))

/-- `generateSocialCopy`, with the shuffle outcome passed in: take 3, apply
the tone chain, then format hashtags. -/
def generateSocialCopy (tone : String) (shuffled : List Str) : List Str :=
  ((shuffled.take 3).map (applyRules (socialToneRules tone))).map formatHashtags

/-- Response record of the `/api/generate` handler. -/
structure GenerationResult where
  titles : List Str
  descriptions : List Str
  socialCopy : List Str
  warnings : List Str

/-- The `/api/generate` handler: the three generator results and a
`warnings` field set to the empty array. -/
def apiGenerate (tone : String) (tShuf dShuf sShuf : List Str) : GenerationResult :=
  { titles := generateTitles tone tShuf
    descriptions := generateDescriptions tone dShuf
    socialCopy := generateSocialCopy tone sShuf
    warnings := [] }

/-! ### Lemmas about the topic extractor -/

theorem mem_splitOnChar_length {sep : Char} {s w : Str} (h : w ∈ splitOnChar sep s) :
    w.length ≤ s.length := by
  induction s generalizing w with
  | nil =>
    simp only [splitOnChar, List.mem_singleton] at h
    simp [h]
  | cons c cs ih =>
    simp only [splitOnChar] at h
    cases hr : splitOnChar sep cs with
    | nil =>
      rw [hr] at h
      by_cases hsep : c = sep <;> simp [hsep] at h <;> simp [h]
    | cons v vs =>
      rw [hr] at h
      by_cases hsep : c = sep <;> simp only [hsep, if_true, if_false, ite_true, ite_false,
        if_neg, List.mem_cons] at h
      · rcases h with h | h | h
        · simp [h]
        · have := ih (w := w) (by rw [hr, h]; exact List.mem_cons_self _ _)
          simp only [List.length_cons]; omega
        · have := ih (w := w) (by rw [hr]; exact List.mem_cons_of_mem _ h)
          simp only [List.length_cons]; omega
      · rcases h with h | h
        · subst h
          have := ih (w := v) (by rw [hr]; exact List.mem_cons_self _ _)
          simp only [List.length_cons]; omega
        · have := ih (w := w) (by rw [hr]; exact List.mem_cons_of_mem _ h)
          simp only [List.length_cons]; omega

theorem mem_of_mem_splitOnChar {sep : Char} {s w : Str} (hw : w ∈ splitOnChar sep s)
    {c : Char} (hc : c ∈ w) : c ∈ s ∧ c ≠ sep := by
  induction s generalizing w with
  | nil =>
    simp only [splitOnChar, List.mem_singleton] at hw
    subst hw
    simp at hc
  | cons a cs ih =>
    simp only [splitOnChar] at hw
    cases hr : splitOnChar sep cs with
    | nil =>
      rw [hr] at hw
      by_cases hsep : a = sep <;> simp [hsep] at hw
      · simp [hw] at hc
      · subst hw
        simp only [List.mem_singleton] at hc
        subst hc
        exact ⟨List.mem_cons_self _ _, hsep⟩
    | cons v vs =>
      rw [hr] at hw
      by_cases hsep : a = sep <;> simp only [hsep, ite_true, ite_false, List.mem_cons] at hw
      · rcases hw with hw | hw | hw
        · subst hw; simp at hc
        · have := ih (w := w) (by rw [hr, hw]; exact List.mem_cons_self _ _) hc
          exact ⟨List.mem_cons_of_mem _ this.1, this.2⟩
        · have := ih (w := w) (by rw [hr]; exact List.mem_cons_of_mem _ hw) hc
          exact ⟨List.mem_cons_of_mem _ this.1, this.2⟩
      · rcases hw with hw | hw
        · subst hw
          rcases List.mem_cons.mp hc with hc | hc
          · subst hc
            exact ⟨List.mem_cons_self _ _, hsep⟩
          · have := ih (w := v) (by rw [hr]; exact List.mem_cons_self _ _) hc
            exact ⟨List.mem_cons_of_mem _ this.1, this.2⟩
        · have := ih (w := w) (by rw [hr]; exact List.mem_cons_of_mem _ hw) hc
          exact ⟨List.mem_cons_of_mem _ this.1, this.2⟩

theorem length_collapseWsAux (s : Str) : ∀ inRun, (collapseWsAux inRun s).length ≤ s.length := by
  induction s with
  | nil => intro inRun; simp [collapseWsAux]
  | cons c cs ih =>
    intro inRun
    simp only [collapseWsAux]
    by_cases hsp : jsIsSpace c
    · rw [if_pos hsp]
      cases inRun
      · simp only [Bool.false_eq_true, if_false, List.length_cons]
        have := ih true
        omega
      · simp only [if_true, List.length_cons]
        have := ih true
        omega
    · rw [if_neg hsp]
      simp only [List.length_cons]
      have := ih false
      omega

theorem length_collapseWs (s : Str) : (collapseWs s).length ≤ s.length :=
  length_collapseWsAux s false

theorem mem_collapseWsAux {s : Str} {c : Char} :
    ∀ {inRun : Bool}, c ∈ collapseWsAux inRun s → c = ' ' ∨ (c ∈ s ∧ jsIsSpace c = false) := by
  induction s with
  | nil => intro inRun h; simp [collapseWsAux] at h
  | cons a cs ih =>
    intro inRun h
    simp only [collapseWsAux] at h
    by_cases hsp : jsIsSpace a
    · rw [if_pos hsp] at h
      have hrun : c ∈ collapseWsAux true cs ∨ c = ' ' := by
        cases inRun
        · simp only [Bool.false_eq_true, if_false] at h
          rcases List.mem_cons.mp h with h | h
          · exact Or.inr h
          · exact Or.inl h
        · simp only [if_true] at h
          exact Or.inl h
      rcases hrun with h' | h'
      · rcases ih h' with h'' | ⟨h1, h2⟩
        · exact Or.inl h''
        · exact Or.inr ⟨List.mem_cons_of_mem _ h1, h2⟩
      · exact Or.inl h'
    · rw [if_neg hsp] at h
      rcases List.mem_cons.mp h with h | h
      · subst h
        exact Or.inr ⟨List.mem_cons_self _ _, by simpa using hsp⟩
      · rcases ih h with h' | ⟨h1, h2⟩
        · exact Or.inl h'
        · exact Or.inr ⟨List.mem_cons_of_mem _ h1, h2⟩

theorem mem_collapseWs {s : Str} {c : Char} (h : c ∈ collapseWs s) :
    c = ' ' ∨ (c ∈ s ∧ jsIsSpace c = false) :=
  mem_collapseWsAux h

theorem length_trimWs (s : Str) : (trimWs s).length ≤ s.length := by
  unfold trimWs
  have h1 := (List.dropWhile_sublist (l := s) (p := jsIsSpace)).length_le
  have h2 := (List.dropWhile_sublist (l := (s.dropWhile jsIsSpace).reverse) (p := jsIsSpace)).length_le
  simp only [List.length_reverse] at h2 ⊢
  omega

theorem mem_trimWs {s : Str} {c : Char} (h : c ∈ trimWs s) : c ∈ s := by
  unfold trimWs at h
  rw [List.mem_reverse] at h
  have h1 := (List.dropWhile_sublist (l := (s.dropWhile jsIsSpace).reverse) (p := jsIsSpace)).subset h
  rw [List.mem_reverse] at h1
  exact (List.dropWhile_sublist _).subset h1

theorem fst_mem_bump {x : Str × Nat} {w : Str} {acc : List (Str × Nat)}
    (h : x ∈ bump w acc) : x.1 = w ∨ x.1 ∈ acc.map Prod.fst := by
  induction acc with
  | nil =>
    simp only [bump, List.mem_singleton] at h
    subst h
    exact Or.inl rfl
  | cons y ys ih =>
    obtain ⟨k, n⟩ := y
    simp only [bump] at h
    by_cases hk : k = w
    · rw [if_pos hk] at h
      rcases List.mem_cons.mp h with h | h
      · subst h; exact Or.inl hk
      · exact Or.inr (List.mem_cons_of_mem _ (List.mem_map_of_mem Prod.fst h))
    · rw [if_neg hk] at h
      rcases List.mem_cons.mp h with h | h
      · subst h
        exact Or.inr (by simp)
      · rcases ih h with h | h
        · exact Or.inl h
        · simp only [List.map_cons] at h ⊢
          exact Or.inr (List.mem_cons_of_mem _ h)

theorem fst_mem_countWords_aux {x : Str × Nat} :
    ∀ (ws : List Str) (acc : List (Str × Nat)),
      x ∈ ws.foldl (fun acc w => bump w acc) acc →
      x.1 ∈ ws ∨ x.1 ∈ acc.map Prod.fst := by
  intro ws
  induction ws with
  | nil =>
    intro acc h
    exact Or.inr (List.mem_map.mpr ⟨x, h, rfl⟩)
  | cons w ws ih =>
    intro acc h
    simp only [List.foldl_cons] at h
    rcases ih (bump w acc) h with h | h
    · exact Or.inl (List.mem_cons_of_mem _ h)
    · obtain ⟨p, hp, hpe⟩ := List.mem_map.mp h
      rcases fst_mem_bump hp with h' | h'
      · exact Or.inl (by rw [← hpe, h']; exact List.mem_cons_self _ _)
      · exact Or.inr (hpe ▸ h')

theorem fst_mem_countWords {x : Str × Nat} {ws : List Str} (h : x ∈ countWords ws) :
    x.1 ∈ ws := by
  rcases fst_mem_countWords_aux ws [] h with h | h
  · exact h
  · simp at h

theorem mem_insertByCountDesc {x y : Str × Nat} {l : List (Str × Nat)}
    (h : x ∈ insertByCountDesc y l) : x = y ∨ x ∈ l := by
  induction l with
  | nil => simpa [insertByCountDesc] using h
  | cons z zs ih =>
    simp only [insertByCountDesc] at h
    split at h
    · rcases List.mem_cons.mp h with h | h
      · exact Or.inl h
      · exact Or.inr h
    · rcases List.mem_cons.mp h with h | h
      · exact Or.inr (h ▸ List.mem_cons_self _ _)
      · rcases ih h with h | h
        · exact Or.inl h
        · exact Or.inr (List.mem_cons_of_mem _ h)

theorem mem_sortByCountDesc {x : Str × Nat} {l : List (Str × Nat)}
    (h : x ∈ sortByCountDesc l) : x ∈ l := by
  induction l with
  | nil => simpa [sortByCountDesc] using h
  | cons y ys ih =>
    simp only [sortByCountDesc] at h
    rcases mem_insertByCountDesc h with h | h
    · exact h ▸ List.mem_cons_self _ _
    · exact List.mem_cons_of_mem _ (ih h)

theorem mem_wordsOf {stop : List Str} {content w : Str} (h : w ∈ wordsOf stop content) :
    3 < w.length ∧ stop.contains w = false ∧ ∀ c ∈ w, jsIsWordChar c = true := by
  unfold wordsOf at h
  obtain ⟨hmem, hp⟩ := List.mem_filter.mp h
  rw [Bool.and_eq_true] at hp
  obtain ⟨hlen, hstop⟩ := hp
  refine ⟨by simpa using hlen, by simpa using hstop, ?_⟩
  intro c hc
  obtain ⟨hcc, hcne⟩ := mem_of_mem_splitOnChar hmem hc
  unfold cleanContentOf at hcc
  have h1 := mem_trimWs hcc
  rcases mem_collapseWs h1 with h2 | ⟨h2, h3⟩
  · exact absurd h2 hcne
  · obtain ⟨b, _, hb⟩ := List.mem_map.mp h2
    by_cases hw : jsIsWordChar b || jsIsSpace b
    · rw [if_pos hw] at hb
      subst hb
      rcases Bool.or_eq_true .. |>.mp hw with h | h
      · exact h
      · rw [h] at h3; cases h3
    · rw [if_neg hw] at hb
      subst hb
      simp [jsIsSpace] at h3

theorem mem_topicsOf {stop : List Str} {content : Str} {maxTopics : Nat} {t : Str}
    (h : t ∈ topicsOf stop content maxTopics) : t ∈ wordsOf stop content := by
  unfold topicsOf at h
  obtain ⟨p, hp, hpe⟩ := List.mem_map.mp h
  have hp2 := List.mem_of_mem_take hp
  have hp3 := mem_sortByCountDesc hp2
  exact hpe ▸ fst_mem_countWords hp3

theorem mem_extractKeyTopicsWith {stop : List Str} {content : Str} {maxTopics : Nat} {t : Str}
    (h : t ∈ extractKeyTopicsWith stop content maxTopics) :
    t ∈ wordsOf stop content ∨ t = str "content" ∨ t = str "information" ∨
      t = str "strategies" ∨ t = str "success" := by
  unfold extractKeyTopicsWith padTopics at h
  split at h
  · simp only [List.mem_cons, List.mem_singleton] at h
    tauto
  · split at h
    · rcases List.mem_append.mp h with h | h
      · exact Or.inl (mem_topicsOf h)
      · simp only [List.mem_cons, List.mem_singleton] at h
        tauto
    · split at h
      · rcases List.mem_append.mp h with h | h
        · exact Or.inl (mem_topicsOf h)
        · simp only [List.mem_singleton] at h
          tauto
      · exact Or.inl (mem_topicsOf h)

theorem three_le_length_padTopics (topics : List Str) : 3 ≤ (padTopics topics).length := by
  unfold padTopics
  split
  · simp
  · split
    · rename_i h1
      simp only [List.length_append, List.length_cons, List.length_nil]
      omega
    · split
      · simp only [List.length_append, List.length_cons, List.length_nil]
        omega
      · rename_i h0 h1 h2
        omega

theorem three_le_length_extractKeyTopicsWith (stop : List Str) (content : Str)
    (maxTopics : Nat) : 3 ≤ (extractKeyTopicsWith stop content maxTopics).length :=
  three_le_length_padTopics (topicsOf stop content maxTopics)

theorem extractWith_wellformed (stop : List Str) (content : Str) (maxTopics : Nat)
    (hc : stop.contains (str "content") = false)
    (hi : stop.contains (str "information") = false)
    (hs : stop.contains (str "strategies") = false)
    (hu : stop.contains (str "success") = false) :
    3 ≤ (extractKeyTopicsWith stop content maxTopics).length ∧
      ∀ t ∈ extractKeyTopicsWith stop content maxTopics,
        3 < t.length ∧ stop.contains t = false := by
  refine ⟨three_le_length_extractKeyTopicsWith stop content maxTopics, ?_⟩
  intro t ht
  rcases mem_extractKeyTopicsWith ht with h | h | h | h | h
  · have := mem_wordsOf h
    exact ⟨this.1, this.2.1⟩
  · subst h; exact ⟨by decide, hc⟩
  · subst h; exact ⟨by decide, hi⟩
  · subst h; exact ⟨by decide, hs⟩
  · subst h; exact ⟨by decide, hu⟩

/-- C2: for every input text and every requested topic count, the topic
extraction returns a sequence of length at least 3 whose entries are never
stop-words of the fixed stop-word set and never tokens of length ≤ 3; in
particular it is never empty.  Proved for the `extractKeyTopics` of both
server documents (they differ only in the stop-word set). -/
theorem extractKeyTopics_wellformed (content : Str) (maxTopics : Nat) :
    (3 ≤ (extractKeyTopics content maxTopics).length ∧
      ∀ t ∈ extractKeyTopics content maxTopics,
        3 < t.length ∧ commonWords.contains t = false) ∧
    (3 ≤ (extractKeyTopics2 content maxTopics).length ∧
      ∀ t ∈ extractKeyTopics2 content maxTopics,
        3 < t.length ∧ commonWords2.contains t = false) :=
  ⟨extractWith_wellformed commonWords content maxTopics
      (by decide) (by decide) (by decide) (by decide),
    extractWith_wellformed commonWords2 content maxTopics
      (by decide) (by decide) (by decide) (by decide)⟩

/-- C10: every topic entry handed to `ensureCompleteWord` by the generators
(the first three entries of an `extractKeyTopics` result) is a defined
string of length greater than 3, so the fallback branch of
`ensureCompleteWord` that returns `'content'` for missing or short words is
unreachable in those calls. -/
theorem topics_passed_complete (content : Str) (maxTopics i : Nat) (hi : i < 3) :
    ∃ w, (extractKeyTopics content maxTopics)[i]? = some w ∧ 3 < w.length := by
  have hlen := three_le_length_extractKeyTopicsWith commonWords content maxTopics
  have hilen : i < (extractKeyTopics content maxTopics).length :=
    lt_of_lt_of_le hi hlen
  refine ⟨(extractKeyTopics content maxTopics)[i], List.getElem?_eq_getElem hilen, ?_⟩
  have hmem : (extractKeyTopics content maxTopics)[i] ∈ extractKeyTopics content maxTopics :=
    List.getElem_mem hilen
  exact ((extractWith_wellformed commonWords content maxTopics
    (by decide) (by decide) (by decide) (by decide)).2 _ hmem).1

/-- Witness for C10 at a concrete input and index. -/
theorem topics_passed_complete_witness :
    (0 : Nat) < 3 ∧ ∃ w, (extractKeyTopics (str "hello world example") 3)[0]? = some w ∧
      3 < w.length :=
  ⟨by decide, topics_passed_complete (str "hello world example") 3 0 (by decide)⟩

theorem jsToLower_of_space {c : Char} (h : jsIsSpace c = true) : jsToLower c = c := by
  unfold jsIsSpace at h
  repeat rw [Bool.or_eq_true] at h
  rcases h with ((((h | h) | h) | h) | h) | h <;>
    · rw [show c = _ from beq_iff_eq.mp h]
      decide

theorem wordsOf_eq_nil_of_short {stop : List Str} {content : Str}
    (h : content.length < 4) : wordsOf stop content = [] := by
  unfold wordsOf
  rw [List.filter_eq_nil_iff]
  intro w hw
  have h1 := mem_splitOnChar_length hw
  have h2 : (cleanContentOf content).length ≤ content.length := by
    unfold cleanContentOf
    have h3 := length_trimWs (collapseWs ((content.map jsToLower).map
      (fun c => if jsIsWordChar c || jsIsSpace c then c else ' ')))
    have h4 := length_collapseWs ((content.map jsToLower).map
      (fun c => if jsIsWordChar c || jsIsSpace c then c else ' '))
    simp only [List.length_map] at h3 h4 ⊢
    omega
  have hlen : ¬ 3 < w.length := by omega
  simp [hlen]

theorem cleanContentOf_all_space {content : Str}
    (h : ∀ c ∈ content, jsIsSpace c = true) : cleanContentOf content = [] := by
  unfold cleanContentOf
  have hmapped : ∀ c ∈ (content.map jsToLower).map
      (fun c => if jsIsWordChar c || jsIsSpace c then c else ' '), jsIsSpace c = true := by
    intro c hc
    obtain ⟨b, hb, hbe⟩ := List.mem_map.mp hc
    obtain ⟨a, ha, hae⟩ := List.mem_map.mp hb
    have hsp : jsIsSpace b = true := by
      rw [← hae, jsToLower_of_space (h a ha)]
      exact h a ha
    by_cases hw : jsIsWordChar b || jsIsSpace b
    · rw [if_pos hw] at hbe
      rw [← hbe]; exact hsp
    · rw [if_neg hw] at hbe
      rw [← hbe]; decide
  generalize (content.map jsToLower).map
    (fun c => if jsIsWordChar c || jsIsSpace c then c else ' ') = m at hmapped ⊢
  clear h
  have haux : ∀ (s : Str), (∀ c ∈ s, jsIsSpace c = true) →
      collapseWsAux true s = [] ∧ (collapseWsAux false s = [] ∨ collapseWsAux false s = [' ']) := by
    intro s
    induction s with
    | nil => intro _; exact ⟨rfl, Or.inl rfl⟩
    | cons a cs ih =>
      intro hall
      have hsp : jsIsSpace a = true := hall a (List.mem_cons_self _ _)
      have ihc := ih (fun c hc => hall c (List.mem_cons_of_mem _ hc))
      constructor
      · simp only [collapseWsAux, hsp, if_true]
        exact ihc.1
      · simp only [collapseWsAux, hsp, if_true, Bool.false_eq_true, if_false]
        exact Or.inr (by rw [ihc.1])
  rcases (haux m hmapped).2 with h | h
  · unfold collapseWs
    rw [h]
    decide
  · unfold collapseWs
    rw [h]
    decide

theorem wordsOf_eq_nil_of_space {stop : List Str} {content : Str}
    (h : ∀ c ∈ content, jsIsSpace c = true) : wordsOf stop content = [] := by
  unfold wordsOf
  rw [cleanContentOf_all_space h]
  rw [show splitOnChar ' ' [] = [[]] from rfl]
  simp

/-- C8: for every input text that is empty, whitespace-only, or shorter
than 4 characters, `extractKeyTopics` returns exactly the default filler
sequence (and, being a total function of the model, never raises).  Proved
for both server documents' versions. -/
theorem extractKeyTopics_short_default (content : Str) (maxTopics : Nat)
    (h : content.length < 4 ∨ ∀ c ∈ content, jsIsSpace c = true) :
    extractKeyTopics content maxTopics = [str "content", str "information", str "strategies"] ∧
    extractKeyTopics2 content maxTopics = [str "content", str "information", str "strategies"] := by
  have hw1 : wordsOf commonWords content = [] := by
    rcases h with h | h
    · exact wordsOf_eq_nil_of_short h
    · exact wordsOf_eq_nil_of_space h
  have hw2 : wordsOf commonWords2 content = [] := by
    rcases h with h | h
    · exact wordsOf_eq_nil_of_short h
    · exact wordsOf_eq_nil_of_space h
  constructor
  · unfold extractKeyTopics extractKeyTopicsWith topicsOf
    rw [hw1]
    simp [countWords, sortByCountDesc, padTopics]
  · unfold extractKeyTopics2 extractKeyTopicsWith topicsOf
    rw [hw2]
    simp [countWords, sortByCountDesc, padTopics]

/-- Witness for C8 at the concrete two-character input. -/
theorem extractKeyTopics_short_default_witness :
    ((str "ab").length < 4 ∨ ∀ c ∈ str "ab", jsIsSpace c = true) ∧
    (extractKeyTopics (str "ab") 5 = [str "content", str "information", str "strategies"] ∧
      extractKeyTopics2 (str "ab") 5 = [str "content", str "information", str "strategies"]) :=
  ⟨Or.inl (by decide), extractKeyTopics_short_default (str "ab") 5 (Or.inl (by decide))⟩

/-! ### Lemmas about the content-type detector -/

theorem foldl_keepmax {α : Type} (f : α → Nat) :
    ∀ (l : List α) (a : α),
      (l.foldl (fun x y => if f y < f x then x else y) a = a ∧ ∀ x ∈ l, f x < f a) ∨
      (∃ pre post,
        l = pre ++ l.foldl (fun x y => if f y < f x then x else y) a :: post ∧
        f a ≤ f (l.foldl (fun x y => if f y < f x then x else y) a) ∧
        (∀ x ∈ pre, f x ≤ f (l.foldl (fun x y => if f y < f x then x else y) a)) ∧
        (∀ x ∈ post, f x < f (l.foldl (fun x y => if f y < f x then x else y) a))) := by
  intro l
  induction l with
  | nil =>
    intro a
    exact Or.inl ⟨rfl, by simp⟩
  | cons b l ih =>
    intro a
    simp only [List.foldl_cons]
    by_cases hb : f b < f a
    · rw [if_pos hb]
      rcases ih a with ⟨heq, hall⟩ | ⟨pre, post, hsplit, hfa, hpre, hpost⟩
      · refine Or.inl ⟨heq, ?_⟩
        intro x hx
        rcases List.mem_cons.mp hx with hx | hx
        · subst hx; exact hb
        · exact hall x hx
      · refine Or.inr ⟨b :: pre, post, ?_, hfa, ?_, hpost⟩
        · rw [List.cons_append, ← hsplit]
        · intro x hx
          rcases List.mem_cons.mp hx with hx | hx
          · subst hx; omega
          · exact hpre x hx
    · rw [if_neg hb]
      have hab : f a ≤ f b := by omega
      rcases ih b with ⟨heq, hall⟩ | ⟨pre, post, hsplit, hfb, hpre, hpost⟩
      · refine Or.inr ⟨[], l, ?_, ?_, by simp, ?_⟩
        · rw [heq]; simp
        · rw [heq]; exact hab
        · rw [heq]; exact hall
      · refine Or.inr ⟨b :: pre, post, ?_, ?_, ?_, hpost⟩
        · rw [List.cons_append, ← hsplit]
        · omega
        · intro x hx
          rcases List.mem_cons.mp hx with hx | hx
          · subst hx; exact hfb
          · exact hpre x hx

/-- C4 (amended): the detector's reduction keeps the champion only while it
is strictly greater, so among the categories sharing the maximum
keyword-match score it selects the last in enumeration order; with the
winning score below 2 the user-selected type is returned unchanged. -/
theorem detectContentType_last_max (content : Str) (user : String) :
    ∃ pre best post,
      contentKeywords = pre ++ best :: post ∧
      (∀ e ∈ pre, catScore content e.2 ≤ catScore content best.2) ∧
      (∀ e ∈ post, catScore content e.2 < catScore content best.2) ∧
      detectContentType content user =
        if 2 ≤ catScore content best.2 then best.1 else user := by
  obtain ⟨e0, rest, hck⟩ : ∃ e0 rest, contentKeywords = e0 :: rest := ⟨_, _, rfl⟩
  have hd : detectContentType content user =
      (if 2 ≤ catScore content (rest.foldl
          (fun a b => if catScore content b.2 < catScore content a.2 then a else b) e0).2
        then (rest.foldl
          (fun a b => if catScore content b.2 < catScore content a.2 then a else b) e0).1
        else user) := by
    unfold detectContentType
    rw [hck]
  rcases foldl_keepmax (fun e => catScore content e.2) rest e0 with
    ⟨heq, hall⟩ | ⟨pre, post, hsplit, hfa, hpre, hpost⟩
  · refine ⟨[], e0, rest, by simpa using hck, by simp, ?_, ?_⟩
    · intro x hx
      exact hall x hx
    · rw [hd, heq]
  · refine ⟨e0 :: pre, _, post, ?_, ?_, hpost, hd⟩
    · rw [hck, List.cons_append, ← hsplit]
    · intro e he
      rcases List.mem_cons.mp he with he | he
      · subst he; exact hfa
      · exact hpre e he

/-- C4 counterexample: on content matching exactly two charitable keywords
and two financial keywords, both categories share the maximum score 2 (all
others score 0), the first in enumeration order being `"charitable"` — yet
`detectContentType` returns `"financial"`, the last maximum, refuting the
claimed first-in-order tie-break. -/
theorem detectContentType_first_max_cex :
    contentKeywords.map Prod.fst =
      ["charitable", "financial", "business", "technology", "health", "education"] ∧
    contentKeywords.map
      (fun e => catScore (str "charitable donation financial investment") e.2) =
      [2, 2, 0, 0, 0, 0] ∧
    detectContentType (str "charitable donation financial investment") "article" =
      "financial" ∧
    "financial" ≠ "charitable" := by
  refine ⟨by decide, by decide, by decide, by decide⟩

/-! ### Lemmas about the compliance checker -/

theorem redPrefix_red (j : Str) :
    (str "Red words found:").isPrefixOf (str "Red words found: " ++ j) = true := rfl

theorem redPrefix_yellow (j : Str) :
    (str "Red words found:").isPrefixOf (str "Yellow words found: " ++ j) = false := rfl

theorem redPrefix_us (j : Str) :
    (str "Red words found:").isPrefixOf (str "US-specific terms found: " ++ j) = false := rfl

/-- C3: the warnings list has at most 3 entries; and whenever the content
contains some listed red word (case-insensitively, as a substring), the
red warning heads the list and is the only entry starting with
`"Red words found:"`, listing the comma-joined matched red words. -/
theorem checkCompliance_red_warning (pw : ProhibitedWords) (content : Str) :
    (checkCompliance pw content).length ≤ 3 ∧
    ((∃ w ∈ pw.red_words, jsIncludes (content.map jsToLower) (w.map jsToLower) = true) →
      (checkCompliance pw content).head? =
        some (str "Red words found: " ++ joinComma (redWordsFound pw content)) ∧
      (checkCompliance pw content).filter
          (fun s => (str "Red words found:").isPrefixOf s) =
        [str "Red words found: " ++ joinComma (redWordsFound pw content)]) := by
  constructor
  · unfold checkCompliance
    split <;> split <;> split <;> simp
  · intro ⟨w, hw, hci⟩
    have hred : 0 < (redWordsFound pw content).length := by
      have : w ∈ redWordsFound pw content :=
        List.mem_filter.mpr ⟨hw, hci⟩
      exact List.length_pos.mpr (List.ne_nil_of_mem this)
    unfold checkCompliance
    rw [if_pos hred]
    constructor
    · simp
    · rw [List.append_assoc]
      rw [show ∀ (l : List Str) (a : Str), [a] ++ l = a :: l from fun l a => rfl]
      rw [List.filter_cons_of_pos (by exact redPrefix_red _)]
      rw [List.filter_append]
      have hy : (if 0 < (yellowWordsFound pw content).length then
          [str "Yellow words found: " ++ joinComma (yellowWordsFound pw content)] else
          []).filter (fun s => (str "Red words found:").isPrefixOf s) = [] := by
        split
        · rw [List.filter_cons_of_neg (by simp [redPrefix_yellow])]
          rfl
        · rfl
      have hu : (if 0 < (usTermsFound pw content).length then
          [str "US-specific terms found: " ++ joinComma (usTermsFound pw content)] else
          []).filter (fun s => (str "Red words found:").isPrefixOf s) = [] := by
        split
        · rw [List.filter_cons_of_neg (by simp [redPrefix_us])]
          rfl
        · rfl
      rw [hy, hu]
      rfl

/-- Example word lists standing in for `prohibited-words.json` (the data
file is not among the sources). -/
def pwExample : ProhibitedWords :=
  { red_words := [str "guarantee"], yellow_words := [str "risk"],
    us_specific_terms := [str "401k"] }

/-- Witness for C3: content containing a case-varied red word. -/
theorem checkCompliance_red_warning_witness :
    (∃ w ∈ pwExample.red_words,
      jsIncludes ((str "We GUARANTEE results").map jsToLower) (w.map jsToLower) = true) ∧
    ((checkCompliance pwExample (str "We GUARANTEE results")).head? =
        some (str "Red words found: " ++
          joinComma (redWordsFound pwExample (str "We GUARANTEE results"))) ∧
      (checkCompliance pwExample (str "We GUARANTEE results")).filter
          (fun s => (str "Red words found:").isPrefixOf s) =
        [str "Red words found: " ++
          joinComma (redWordsFound pwExample (str "We GUARANTEE results"))]) :=
  ⟨by decide, (checkCompliance_red_warning pwExample (str "We GUARANTEE results")).2
    (by decide)⟩

/-! ### Lemmas about the replacement chains -/

theorem matchesAt_false_eq (q s : Str) : matchesAt false q s = q.isPrefixOf s := by
  induction q generalizing s with
  | nil => cases s <;> rfl
  | cons p ps ih =>
    cases s with
    | nil => rfl
    | cons c cs =>
      simp only [matchesAt, if_neg (by simp : ¬ (false = true)), List.isPrefixOf, ih]

theorem mem_replaceAnyAux {ci : Bool} {pats : List Str} {rep : Str} :
    ∀ (fuel : Nat) (s : Str) (c : Char), c ∈ replaceAnyAux ci pats rep fuel s →
      c ∈ s ∨ c ∈ rep := by
  intro fuel
  induction fuel with
  | zero =>
    intro s c h
    cases s with
    | nil => simp [replaceAnyAux] at h
    | cons a as => exact Or.inl (by simpa [replaceAnyAux] using h)
  | succ fuel ih =>
    intro s c h
    cases s with
    | nil => simp [replaceAnyAux] at h
    | cons a as =>
      simp only [replaceAnyAux] at h
      cases hf : pats.find? (fun q => !q.isEmpty && matchesAt ci q (a :: as)) with
      | some q =>
        rw [hf] at h
        rcases List.mem_append.mp h with h | h
        · exact Or.inr h
        · rcases ih _ _ h with h | h
          · exact Or.inl (List.mem_of_mem_drop h)
          · exact Or.inr h
      | none =>
        rw [hf] at h
        rcases List.mem_cons.mp h with h | h
        · exact Or.inl (h ▸ List.mem_cons_self _ _)
        · rcases ih _ _ h with h | h
          · exact Or.inl (List.mem_cons_of_mem _ h)
          · exact Or.inr h

theorem mem_replaceAny {ci : Bool} {pats : List Str} {rep s : Str} {c : Char}
    (h : c ∈ replaceAny ci pats rep s) : c ∈ s ∨ c ∈ rep :=
  mem_replaceAnyAux s.length s c h

theorem replaceAnyAux_ne_nil {ci : Bool} {pats : List Str} {rep : Str} (hrep : rep ≠ []) :
    ∀ (fuel : Nat) (s : Str), s ≠ [] → replaceAnyAux ci pats rep fuel s ≠ [] := by
  intro fuel s hs
  cases fuel with
  | zero => cases s with
    | nil => exact absurd rfl hs
    | cons a as => simpa [replaceAnyAux] using hs
  | succ fuel =>
    cases s with
    | nil => exact absurd rfl hs
    | cons a as =>
      simp only [replaceAnyAux]
      cases hf : pats.find? (fun q => !q.isEmpty && matchesAt ci q (a :: as)) with
      | some q => simp [hf, hrep]
      | none => simp [hf]

theorem replaceAny_ne_nil {ci : Bool} {pats : List Str} {rep s : Str} (hrep : rep ≠ [])
    (hs : s ≠ []) : replaceAny ci pats rep s ≠ [] :=
  replaceAnyAux_ne_nil hrep s.length s hs

theorem replaceAnyAux_any_of_rep {ci : Bool} {pats : List Str} {rep : Str}
    (p : Char → Bool) (hrep : rep.any p = true) :
    ∀ (fuel : Nat) (s : Str), s.any p = true →
      (replaceAnyAux ci pats rep fuel s).any p = true := by
  intro fuel
  induction fuel with
  | zero =>
    intro s hs
    cases s with
    | nil => simp at hs
    | cons a as => simpa [replaceAnyAux] using hs
  | succ fuel ih =>
    intro s hs
    cases s with
    | nil => simp at hs
    | cons a as =>
      simp only [replaceAnyAux]
      cases hf : pats.find? (fun q => !q.isEmpty && matchesAt ci q (a :: as)) with
      | some q =>
        simp only [List.any_append, Bool.or_eq_true]
        exact Or.inl hrep
      | none =>
        simp only [List.any_cons, Bool.or_eq_true] at hs ⊢
        rcases hs with hs | hs
        · exact Or.inl hs
        · exact Or.inr (ih as hs)

theorem replaceAnyAux_any_of_pats {pats : List Str} {rep : Str}
    (p : Char → Bool) (hpats : ∀ q ∈ pats, ∀ c ∈ q, p c = false) :
    ∀ (fuel : Nat) (s : Str), s.length ≤ fuel → s.any p = true →
      (replaceAnyAux false pats rep fuel s).any p = true := by
  intro fuel
  induction fuel with
  | zero =>
    intro s hle hs
    cases s with
    | nil => simp at hs
    | cons a as => simp at hle
  | succ fuel ih =>
    intro s hle hs
    cases s with
    | nil => simp at hs
    | cons a as =>
      simp only [replaceAnyAux]
      cases hf : pats.find? (fun q => !q.isEmpty && matchesAt false q (a :: as)) with
      | some q =>
        have hq := List.find?_some hf
        rw [Bool.and_eq_true] at hq
        obtain ⟨hne, hmat⟩ := hq
        have hqpats : q ∈ pats := List.mem_of_find?_eq_some hf
        rw [matchesAt_false_eq] at hmat
        obtain ⟨t, ht⟩ := List.isPrefixOf_iff_prefix.mp hmat
        have hdrop : (a :: as).drop q.length = t := by
          rw [← ht]
          exact List.drop_left q t
        have hq1 : 1 ≤ q.length := by
          cases q with
          | nil => simp at hne
          | cons x xs => simp
        have hq_false : q.any p = false := by
          rw [List.any_eq_false]
          intro x hx
          simp [hpats q hqpats x hx]
        have ht_any : t.any p = true := by
          rw [← ht] at hs
          rw [List.any_append, hq_false, Bool.false_or] at hs
          exact hs
        have htlen : t.length ≤ fuel := by
          have : (q ++ t).length = as.length + 1 := by rw [ht]; simp
          simp only [List.length_append] at this
          simp only [List.length_cons] at hle
          omega
        show (rep ++ replaceAnyAux false pats rep fuel ((a :: as).drop q.length)).any p = true
        rw [hdrop]
        simp only [List.any_append, Bool.or_eq_true]
        exact Or.inr (ih t htlen ht_any)
      | none =>
        simp only [List.any_cons, Bool.or_eq_true] at hs ⊢
        rcases hs with hs | hs
        · exact Or.inl hs
        · simp only [List.length_cons] at hle
          exact Or.inr (ih as (by omega) hs)

theorem replaceAnyAux_single_not_mem {b : Char} {rep : Str} (hrep : b ∉ rep) :
    ∀ (fuel : Nat) (s : Str), s.length ≤ fuel → b ∉ replaceAnyAux false [[b]] rep fuel s := by
  intro fuel
  induction fuel with
  | zero =>
    intro s hle h
    cases s with
    | nil => simp [replaceAnyAux] at h
    | cons a as => simp at hle
  | succ fuel ih =>
    intro s hle h
    cases s with
    | nil => simp [replaceAnyAux] at h
    | cons a as =>
      simp only [replaceAnyAux] at h
      simp only [List.length_cons] at hle
      cases hf : List.find? (fun q => !q.isEmpty && matchesAt false q (a :: as)) [[b]] with
      | some q =>
        rw [hf] at h
        have hq : q = [b] := by
          have := List.mem_of_find?_eq_some hf
          simpa using this
        subst hq
        rcases List.mem_append.mp h with h | h
        · exact hrep h
        · exact ih _ (by simpa using Nat.le_of_succ_le_succ (Nat.succ_le_succ hle)) h
      | none =>
        rw [hf] at h
        have hne : a ≠ b := by
          intro hab
          have := List.find?_eq_none.mp hf [b] (by simp)
          rw [Bool.and_eq_true] at this
          apply this
          constructor
          · simp
          · simp only [matchesAt, hab]
            simp
        rcases List.mem_cons.mp h with h | h
        · exact hne h.symm
        · exact ih _ (by omega) h

/-- A rule preserves presence of an ASCII letter: either its replacement
contains one, or it is a case-sensitive rule whose pattern alternatives
contain none (so letters never fall inside a match). -/
def ruleKeepsAlpha (r : Rule) : Bool :=
  r.rep.any isAsciiAlpha || (!r.ci && r.pats.all (fun q => q.all (fun c => !isAsciiAlpha c)))

theorem applyRule_hasAlpha {r : Rule} (hr : ruleKeepsAlpha r = true) {s : Str}
    (hs : s.any isAsciiAlpha = true) : (applyRule s r).any isAsciiAlpha = true := by
  unfold ruleKeepsAlpha at hr
  rw [Bool.or_eq_true] at hr
  rcases hr with hr | hr
  · exact replaceAnyAux_any_of_rep _ hr s.length s hs
  · rw [Bool.and_eq_true] at hr
    obtain ⟨hci, hpats⟩ := hr
    have hci' : r.ci = false := by simpa using hci
    unfold applyRule replaceAny
    rw [hci']
    refine replaceAnyAux_any_of_pats _ ?_ s.length s le_rfl hs
    intro q hq c hc
    rw [List.all_eq_true] at hpats
    have := hpats q hq
    rw [List.all_eq_true] at this
    simpa using this c hc

theorem applyRules_hasAlpha {rs : List Rule} (hrs : rs.all ruleKeepsAlpha = true) :
    ∀ {s : Str}, s.any isAsciiAlpha = true → (applyRules rs s).any isAsciiAlpha = true := by
  induction rs with
  | nil => intro s hs; exact hs
  | cons r rs ih =>
    intro s hs
    rw [List.all_cons, Bool.and_eq_true] at hrs
    exact ih hrs.2 (applyRule_hasAlpha hrs.1 hs)

theorem mem_applyRules {rs : List Rule} :
    ∀ {s : Str} {c : Char}, c ∈ applyRules rs s → c ∈ s ∨ ∃ r ∈ rs, c ∈ r.rep := by
  induction rs with
  | nil => intro s c h; exact Or.inl h
  | cons r rs ih =>
    intro s c h
    rcases ih h with h | ⟨r', hr', hc⟩
    · rcases mem_replaceAny h with h | h
      · exact Or.inl h
      · exact Or.inr ⟨r, List.mem_cons_self _ _, h⟩
    · exact Or.inr ⟨r', List.mem_cons_of_mem _ hr', hc⟩

theorem applyRules_not_mem {rs : List Rule} {s : Str} {x : Char} (hs : x ∉ s)
    (hrs : ∀ r ∈ rs, x ∉ r.rep) : x ∉ applyRules rs s := by
  intro h
  rcases mem_applyRules h with h | ⟨r, hr, hc⟩
  · exact hs h
  · exact hrs r hr hc

theorem hasAlpha_ne_nil {s : Str} (h : s.any isAsciiAlpha = true) : s ≠ [] := by
  intro he
  subst he
  simp at h

/-- Every rule of every tone chain keeps an ASCII letter present. -/
theorem titleToneRules_keepAlpha (tone : String) :
    (titleToneRules tone).all ruleKeepsAlpha = true := by
  unfold titleToneRules
  split <;> decide

theorem descToneRules_keepAlpha (tone : String) :
    (descToneRules tone).all ruleKeepsAlpha = true := by
  unfold descToneRules
  split <;> decide

theorem socialToneRules_keepAlpha (tone : String) :
    (socialToneRules tone).all ruleKeepsAlpha = true := by
  unfold socialToneRules
  split <;> decide

/-! ### Lemmas about template rendering and bucket lookup -/

theorem mem_render {env : Env} {ps : List Piece} {c : Char} (h : c ∈ render env ps) :
    ∃ p ∈ ps, c ∈ pieceVal env p := by
  unfold render at h
  obtain ⟨l, hl, hc⟩ := List.mem_flatten.mp h
  obtain ⟨p, hp, hpe⟩ := List.mem_map.mp hl
  exact ⟨p, hp, hpe ▸ hc⟩

/-- A template with a literal chunk containing an ASCII letter. -/
def templateHasAlphaLit (ps : List Piece) : Bool :=
  ps.any (fun p => match p with
    | Piece.lit s => (str s).any isAsciiAlpha
    | _ => false)

theorem render_hasAlpha {env : Env} {ps : List Piece}
    (h : templateHasAlphaLit ps = true) : (render env ps).any isAsciiAlpha = true := by
  unfold templateHasAlphaLit at h
  rw [List.any_eq_true] at h
  obtain ⟨p, hp, hpa⟩ := h
  cases p with
  | lit s =>
    rw [List.any_eq_true] at hpa ⊢
    obtain ⟨c, hc, hca⟩ := hpa
    refine ⟨c, ?_, hca⟩
    unfold render
    exact List.mem_flatten.mpr ⟨str s, List.mem_map.mpr ⟨Piece.lit s, hp, rfl⟩, hc⟩
  | capMain => simp at hpa
  | mainT => simp at hpa
  | secT => simp at hpa
  | audR => simp at hpa
  | audV => simp at hpa

theorem jsLookup_mem {α : Type} {table : List (String × α)} {key : String} {v : α}
    (h : jsLookup table key = some v) : ∃ k, (k, v) ∈ table := by
  induction table with
  | nil => simp [jsLookup] at h
  | cons e rest ih =>
    obtain ⟨k, w⟩ := e
    simp only [jsLookup] at h
    split at h
    · rw [Option.some_inj] at h
      exact ⟨k, by simp [h]⟩
    · obtain ⟨k', hk'⟩ := ih h
      exact ⟨k', List.mem_cons_of_mem _ hk'⟩

theorem jsLookupOr_cases {α : Type} (table : List (String × α)) (k1 k2 : String) (dflt : α) :
    (∃ k, (k, jsLookupOr table k1 k2 dflt) ∈ table) ∨ jsLookupOr table k1 k2 dflt = dflt := by
  unfold jsLookupOr
  cases h1 : jsLookup table k1 with
  | some v => exact Or.inl (jsLookup_mem h1)
  | none =>
    cases h2 : jsLookup table k2 with
    | some v => exact Or.inl (jsLookup_mem h2)
    | none => exact Or.inr rfl

/-- All title templates, across the ten buckets. -/
def allTitleTemplates : List (List Piece) := (titleTable.map Prod.snd).flatten

/-- All description templates, across the ten buckets. -/
def allDescTemplates : List (List Piece) := (descTable.map Prod.snd).flatten

/-- All social-copy templates, across the ten buckets. -/
def allSocialTemplates : List (List Piece) := (socialTable.map Prod.snd).flatten

theorem lookup_subset_flatten {table : List (String × List (List Piece))}
    {dflt : List (List Piece)} {k1 k2 : String}
    (hd : ∃ k, (k, dflt) ∈ table) {ps : List Piece}
    (h : ps ∈ jsLookupOr table k1 k2 dflt) : ps ∈ (table.map Prod.snd).flatten := by
  rcases jsLookupOr_cases table k1 k2 dflt with ⟨k, hk⟩ | he
  · exact List.mem_flatten.mpr ⟨_, List.mem_map.mpr ⟨(k, jsLookupOr table k1 k2 dflt), hk, rfl⟩, h⟩
  · obtain ⟨k, hk⟩ := hd
    rw [he] at h
    exact List.mem_flatten.mpr ⟨dflt, List.mem_map.mpr ⟨(k, dflt), hk, rfl⟩, h⟩

theorem allTitleTemplates_alpha : allTitleTemplates.all templateHasAlphaLit = true := by decide

theorem allDescTemplates_alpha : allDescTemplates.all templateHasAlphaLit = true := by decide

theorem allSocialTemplates_alpha : allSocialTemplates.all templateHasAlphaLit = true := by decide

theorem titleTable_lengths : titleTable.all (fun e => e.2.length = 14) = true := by decide

theorem descTable_lengths : descTable.all (fun e => 3 ≤ e.2.length) = true := by decide

theorem socialTable_lengths : socialTable.all (fun e => 3 ≤ e.2.length) = true := by decide

theorem mem_titleBucket {content : Str} {ct ta : String} {t : Str}
    (h : t ∈ titleBucket content ct ta) :
    ∃ ps ∈ allTitleTemplates, t = render (titleEnv content ta) ps := by
  unfold titleBucket at h
  obtain ⟨ps, hps, he⟩ := List.mem_map.mp h
  exact ⟨ps, lookup_subset_flatten ⟨"article", by decide⟩ hps, he.symm⟩

theorem mem_descBucket {content : Str} {ct ta : String} {t : Str}
    (h : t ∈ descBucket content ct ta) :
    ∃ ps ∈ allDescTemplates, t = render (descEnv content ta) ps := by
  unfold descBucket at h
  obtain ⟨ps, hps, he⟩ := List.mem_map.mp h
  exact ⟨ps, lookup_subset_flatten ⟨"article", by decide⟩ hps, he.symm⟩

theorem mem_socialBucket {content : Str} {ct ta : String} {t : Str}
    (h : t ∈ socialBucket content ct ta) :
    ∃ ps ∈ allSocialTemplates, t = render (socialEnv content ta) ps := by
  unfold socialBucket at h
  obtain ⟨ps, hps, he⟩ := List.mem_map.mp h
  exact ⟨ps, lookup_subset_flatten ⟨"article", by decide⟩ hps, he.symm⟩

theorem jsLookupOr_length_eq {table : List (String × List (List Piece))}
    {dflt : List (List Piece)} {n : Nat} (k1 k2 : String)
    (htab : table.all (fun e => e.2.length = n) = true) (hd : dflt.length = n) :
    (jsLookupOr table k1 k2 dflt).length = n := by
  rcases jsLookupOr_cases table k1 k2 dflt with ⟨k, hk⟩ | he
  · have h2 : decide ((jsLookupOr table k1 k2 dflt).length = n) = true :=
      List.all_eq_true.mp htab _ hk
    exact of_decide_eq_true h2
  · rw [he]
    exact hd

theorem jsLookupOr_length_le {table : List (String × List (List Piece))}
    {dflt : List (List Piece)} {n : Nat} (k1 k2 : String)
    (htab : table.all (fun e => n ≤ e.2.length) = true) (hd : n ≤ dflt.length) :
    n ≤ (jsLookupOr table k1 k2 dflt).length := by
  rcases jsLookupOr_cases table k1 k2 dflt with ⟨k, hk⟩ | he
  · have h2 : decide (n ≤ (jsLookupOr table k1 k2 dflt).length) = true :=
      List.all_eq_true.mp htab _ hk
    exact of_decide_eq_true h2
  · rw [he]
    exact hd

theorem titleBucket_length (content : Str) (ct ta : String) :
    (titleBucket content ct ta).length = 14 := by
  unfold titleBucket
  rw [List.length_map]
  exact jsLookupOr_length_eq _ _ titleTable_lengths rfl

theorem descBucket_length (content : Str) (ct ta : String) :
    3 ≤ (descBucket content ct ta).length := by
  unfold descBucket
  rw [List.length_map]
  exact jsLookupOr_length_le _ _ descTable_lengths (by decide)

theorem socialBucket_length (content : Str) (ct ta : String) :
    3 ≤ (socialBucket content ct ta).length := by
  unfold socialBucket
  rw [List.length_map]
  exact jsLookupOr_length_le _ _ socialTable_lengths (by decide)

theorem formatHashtags_ne_nil {s : Str} (hs : s ≠ []) : formatHashtags s ≠ [] := by
  cases s with
  | nil => exact absurd rfl hs
  | cons c cs =>
    show formatHashtagsAux (c :: cs).length (c :: cs) ≠ []
    simp only [List.length_cons]
    simp only [formatHashtagsAux]
    split
    · simp
    · simp

/-- C1: for every content, content-type, audience, tone and every outcome
of the internal shuffle (any permutation of the interpolated bucket),
`generateTitles` returns exactly 5 non-empty strings and
`generateDescriptions` and `generateSocialCopy` each return exactly 3
non-empty strings (every bucket holds at least 5, respectively 3,
templates). -/
theorem generate_counts_nonempty (content : Str) (contentType targetAudience tone : String)
    (tS dS sS : List Str)
    (ht : tS.Perm (titleBucket content contentType targetAudience))
    (hd : dS.Perm (descBucket content contentType targetAudience))
    (hs : sS.Perm (socialBucket content contentType targetAudience)) :
    ((generateTitles tone tS).length = 5 ∧ ∀ t ∈ generateTitles tone tS, t ≠ []) ∧
    ((generateDescriptions tone dS).length = 3 ∧
      ∀ t ∈ generateDescriptions tone dS, t ≠ []) ∧
    ((generateSocialCopy tone sS).length = 3 ∧
      ∀ t ∈ generateSocialCopy tone sS, t ≠ []) := by
  refine ⟨⟨?_, ?_⟩, ⟨?_, ?_⟩, ⟨?_, ?_⟩⟩
  · unfold generateTitles
    rw [List.length_map, List.length_take, ht.length_eq, titleBucket_length]
    decide
  · intro t htm
    unfold generateTitles at htm
    obtain ⟨t0, ht0, hte⟩ := List.mem_map.mp htm
    have h2 : t0 ∈ titleBucket content contentType targetAudience :=
      ht.mem_iff.mp (List.mem_of_mem_take ht0)
    obtain ⟨ps, hps, he⟩ := mem_titleBucket h2
    have halpha : t0.any isAsciiAlpha = true :=
      he ▸ render_hasAlpha (List.all_eq_true.mp allTitleTemplates_alpha _ hps)
    subst hte
    exact hasAlpha_ne_nil (applyRules_hasAlpha (titleToneRules_keepAlpha tone) halpha)
  · unfold generateDescriptions
    rw [List.length_map, List.length_take, hd.length_eq]
    have := descBucket_length content contentType targetAudience
    omega
  · intro t htm
    unfold generateDescriptions at htm
    obtain ⟨t0, ht0, hte⟩ := List.mem_map.mp htm
    have h2 : t0 ∈ descBucket content contentType targetAudience :=
      hd.mem_iff.mp (List.mem_of_mem_take ht0)
    obtain ⟨ps, hps, he⟩ := mem_descBucket h2
    have halpha : t0.any isAsciiAlpha = true :=
      he ▸ render_hasAlpha (List.all_eq_true.mp allDescTemplates_alpha _ hps)
    subst hte
    exact hasAlpha_ne_nil (applyRules_hasAlpha (descToneRules_keepAlpha tone) halpha)
  · unfold generateSocialCopy
    rw [List.length_map, List.length_map, List.length_take, hs.length_eq]
    have := socialBucket_length content contentType targetAudience
    omega
  · intro t htm
    unfold generateSocialCopy at htm
    obtain ⟨t1, ht1, hte⟩ := List.mem_map.mp htm
    obtain ⟨t0, ht0, ht1e⟩ := List.mem_map.mp ht1
    have h2 : t0 ∈ socialBucket content contentType targetAudience :=
      hs.mem_iff.mp (List.mem_of_mem_take ht0)
    obtain ⟨ps, hps, he⟩ := mem_socialBucket h2
    have halpha : t0.any isAsciiAlpha = true :=
      he ▸ render_hasAlpha (List.all_eq_true.mp allSocialTemplates_alpha _ hps)
    subst hte
    subst ht1e
    exact formatHashtags_ne_nil
      (hasAlpha_ne_nil (applyRules_hasAlpha (socialToneRules_keepAlpha tone) halpha))

/-- Witness for C1 with the identity shuffle at a concrete request. -/
theorem generate_counts_nonempty_witness :
    ((generateTitles "professional"
        (titleBucket (str "hello world example") "article" "managers")).length = 5 ∧
      ∀ t ∈ generateTitles "professional"
        (titleBucket (str "hello world example") "article" "managers"), t ≠ []) ∧
    ((generateDescriptions "professional"
        (descBucket (str "hello world example") "article" "managers")).length = 3 ∧
      ∀ t ∈ generateDescriptions "professional"
        (descBucket (str "hello world example") "article" "managers"), t ≠ []) ∧
    ((generateSocialCopy "professional"
        (socialBucket (str "hello world example") "article" "managers")).length = 3 ∧
      ∀ t ∈ generateSocialCopy "professional"
        (socialBucket (str "hello world example") "article" "managers"), t ≠ []) :=
  generate_counts_nonempty (str "hello world example") "article" "managers" "professional"
    _ _ _ (List.Perm.refl _) (List.Perm.refl _) (List.Perm.refl _)

/-- C9: the `/api/generate` handler always returns an empty `warnings`
array, for every request and every shuffle outcome; compliance warnings
come only from the separate `/api/compliance/check` handler, which does
produce them (shown at an example list and content). -/
theorem apiGenerate_no_warnings :
    (∀ (tone : String) (tShuf dShuf sShuf : List Str),
      (apiGenerate tone tShuf dShuf sShuf).warnings = []) ∧
    checkCompliance pwExample (str "We GUARANTEE results") ≠ [] :=
  ⟨fun _ _ _ _ => rfl, by decide⟩

/-! ### Character-level facts for the professional title tone -/

theorem char_ofNat_toNat {n : Nat} (h : n < 55296) : (Char.ofNat n).toNat = n := by
  unfold Char.ofNat
  rw [dif_pos (Or.inl h)]
  rfl

theorem jsIsWordChar_toNat_lt {c : Char} (h : jsIsWordChar c = true) : c.toNat < 128 := by
  unfold jsIsWordChar isAsciiAlpha at h
  repeat rw [Bool.or_eq_true] at h
  rcases h with ((h | h) | h) | h
  · rw [Bool.and_eq_true] at h
    have h2 : c ≤ 'Z' := of_decide_eq_true h.2
    have h3 : c.toNat ≤ (90 : Nat) := h2
    omega
  · rw [Bool.and_eq_true] at h
    have h2 : c ≤ 'z' := of_decide_eq_true h.2
    have h3 : c.toNat ≤ (122 : Nat) := h2
    omega
  · rw [Bool.and_eq_true] at h
    have h2 : c ≤ '9' := of_decide_eq_true h.2
    have h3 : c.toNat ≤ (57 : Nat) := h2
    omega
  · have h2 : c = '_' := beq_iff_eq.mp h
    subst h2
    decide

theorem jsToUpper_toNat_lt {c : Char} (h : c.toNat < 128) : (jsToUpper c).toNat < 128 := by
  unfold jsToUpper
  split
  · rw [char_ofNat_toNat (by omega)]
    omega
  · exact h

theorem capFirst_ascii {s : Str} (h : ∀ c ∈ s, c.toNat < 128) :
    ∀ c ∈ capFirst s, c.toNat < 128 := by
  cases s with
  | nil => intro c hc; simp [capFirst] at hc
  | cons a as =>
    intro c hc
    rcases List.mem_cons.mp hc with hc | hc
    · subst hc
      exact jsToUpper_toNat_lt (h a (List.mem_cons_self _ _))
    · exact h c (List.mem_cons_of_mem _ hc)

theorem extractKeyTopics_ascii {content : Str} {maxTopics : Nat} :
    ∀ t ∈ extractKeyTopics content maxTopics, ∀ c ∈ t, c.toNat < 128 := by
  intro t ht c hc
  rcases mem_extractKeyTopicsWith ht with h | h | h | h | h
  · exact jsIsWordChar_toNat_lt ((mem_wordsOf h).2.2 c hc)
  all_goals subst h
  all_goals revert c hc
  all_goals decide

theorem ensureCompleteWord_ascii {w : Option Str}
    (h : ∀ x, w = some x → ∀ c ∈ x, c.toNat < 128) :
    ∀ c ∈ ensureCompleteWord w, c.toNat < 128 := by
  cases w with
  | none =>
    intro c hc
    exact (by decide : ∀ c ∈ str "content", c.toNat < 128) c hc
  | some x =>
    have hx := h x rfl
    intro c hc
    simp only [ensureCompleteWord] at hc
    split at hc
    · exact (by decide : ∀ c ∈ str "content", c.toNat < 128) c hc
    · split at hc
      · rcases List.mem_append.mp hc with hc | hc
        · exact hx c (List.mem_of_mem_take hc)
        · exact (by decide : ∀ c ∈ str "marketing", c.toNat < 128) c hc
      · split at hc
        · exact hx c hc
        · split at hc
          · exact hx c hc
          · split at hc
            · exact hx c hc
            · exact hx c hc

theorem orStr_ascii {s d : Str} (hs : ∀ c ∈ s, c.toNat < 128)
    (hd : ∀ c ∈ d, c.toNat < 128) : ∀ c ∈ orStr s d, c.toNat < 128 := by
  unfold orStr
  split
  · exact hd
  · exact hs

theorem titleEnv_ascii (content : Str) :
    (∀ c ∈ (titleEnv content "managers").main, c.toNat < 128) ∧
    (∀ c ∈ (titleEnv content "managers").secondary, c.toNat < 128) ∧
    (∀ c ∈ (titleEnv content "managers").audRaw, c.toNat < 128) ∧
    (∀ c ∈ (titleEnv content "managers").audValid, c.toNat < 128) := by
  have htop : ∀ x, ∀ (i : Nat), (titleTopics content)[i]? = some x →
      ∀ c ∈ x, c.toNat < 128 := by
    intro x i hx
    exact extractKeyTopics_ascii _ (List.getElem?_mem hx)
  refine ⟨?_, ?_, ?_, ?_⟩
  · simp only [titleEnv]
    exact orStr_ascii (ensureCompleteWord_ascii (fun x hx => htop x 0 hx)) (by decide)
  · simp only [titleEnv]
    exact orStr_ascii (ensureCompleteWord_ascii (fun x hx => htop x 1 hx)) (by decide)
  · simp only [titleEnv]
    decide
  · simp only [titleEnv]
    intro c hc
    simp at hc

/-- A template whose literal chunks are pure ASCII. -/
def templateLitsAscii (ps : List Piece) : Bool :=
  ps.all (fun p => match p with
    | Piece.lit s => (str s).all (fun c => decide (c.toNat < 128))
    | _ => true)

theorem allTitleTemplates_ascii : allTitleTemplates.all templateLitsAscii = true := by decide

theorem render_ascii {content : Str} {ps : List Piece}
    (hps : templateLitsAscii ps = true) :
    ∀ c ∈ render (titleEnv content "managers") ps, c.toNat < 128 := by
  intro c hc
  obtain ⟨p, hp, hpv⟩ := mem_render hc
  obtain ⟨hm, hsec, har, hav⟩ := titleEnv_ascii content
  cases p with
  | lit s =>
    unfold templateLitsAscii at hps
    rw [List.all_eq_true] at hps
    have := hps _ hp
    simp only [List.all_eq_true] at this
    exact of_decide_eq_true (this c hpv)
  | capMain => exact capFirst_ascii hm c hpv
  | mainT => exact hm c hpv
  | secT => exact hsec c hpv
  | audR => exact har c hpv
  | audV => exact hav c hpv

theorem applyRules_cons (r : Rule) (rs : List Rule) (s : Str) :
    applyRules (r :: rs) s = applyRules rs (applyRule s r) := rfl

theorem title_professional_no_bang (s : Str) : '!' ∉ applyRules titleRulesProfessional s := by
  rw [show titleRulesProfessional =
    Rule.mk false [str "!"] (str ".") :: titleRulesProfessional.tail from rfl]
  rw [applyRules_cons]
  apply applyRules_not_mem
  · exact replaceAnyAux_single_not_mem (by decide) s.length s le_rfl
  · exact fun r hr => (by decide : ∀ r ∈ titleRulesProfessional.tail, '!' ∉ r.rep) r hr

theorem jsIncludes_head_mem {hay : Str} {c : Char} {rest : Str}
    (h : jsIncludes hay (c :: rest) = true) : c ∈ hay := by
  induction hay with
  | nil => simp [jsIncludes, List.isPrefixOf] at h
  | cons a as ih =>
    simp only [jsIncludes, Bool.or_eq_true] at h
    rcases h with h | h
    · simp only [List.isPrefixOf, Bool.and_eq_true] at h
      have : c = a := beq_iff_eq.mp h.1
      subst this
      exact List.mem_cons_self _ _
    · exact List.mem_cons_of_mem _ (ih h)

/-- C6: with tone `"professional"`, no generated title contains `'!'` (the
first rule of the chain replaces every `'!'` and no later replacement
reintroduces one); and with the audience `"managers"` of the spec's
example, no generated title contains any of the emoji sequences the chain
strips — for every content, content-type and shuffle outcome. -/
theorem professional_titles_clean (content : Str) (contentType targetAudience : String)
    (tS : List Str) (ht : tS.Perm (titleBucket content contentType targetAudience)) :
    (∀ t ∈ generateTitles "professional" tS, '!' ∉ t) ∧
    (targetAudience = "managers" →
      ∀ t ∈ generateTitles "professional" tS,
        '!' ∉ t ∧ ∀ e ∈ titleEmojiPats, jsIncludes t e = false) := by
  have hbang : ∀ t ∈ generateTitles "professional" tS, '!' ∉ t := by
    intro t htm
    unfold generateTitles at htm
    obtain ⟨t0, _, hte⟩ := List.mem_map.mp htm
    subst hte
    exact title_professional_no_bang t0
  refine ⟨hbang, ?_⟩
  intro hta t htm
  subst hta
  refine ⟨hbang t htm, ?_⟩
  unfold generateTitles at htm
  obtain ⟨t0, ht0, hte⟩ := List.mem_map.mp htm
  have h2 : t0 ∈ titleBucket content contentType "managers" :=
    ht.mem_iff.mp (List.mem_of_mem_take ht0)
  obtain ⟨ps, hps, he⟩ := mem_titleBucket h2
  have hascii0 : ∀ c ∈ t0, c.toNat < 128 := by
    rw [he]
    exact render_ascii (List.all_eq_true.mp allTitleTemplates_ascii _ hps)
  have hascii : ∀ c ∈ applyRules (titleToneRules "professional") t0, c.toNat < 128 := by
    intro c hc
    rcases mem_applyRules hc with hc | ⟨r, hr, hc⟩
    · exact hascii0 c hc
    · exact (by decide :
        ∀ r ∈ titleToneRules "professional", ∀ c ∈ r.rep, c.toNat < 128) r hr c hc
  subst hte
  intro e hemem
  cases hinc : jsIncludes (applyRules (titleToneRules "professional") t0) e
  · rfl
  · exfalso
    have hlist : e = str "ğŸ”¥" ∨ e = str "ğŸš€" ∨ e = str "âœ¨" ∨
        e = str "ğŸ’¡" ∨ e = str "ğŸ¯" := by
      simpa [titleEmojiPats] using hemem
    rcases hlist with he' | he' | he' | he' | he' <;> subst he'
    all_goals {
      have hhead := jsIncludes_head_mem hinc
      have := hascii _ hhead
      revert this
      decide
    }

/-! ### Interpolation round-trip (C5) -/

/-- Interpolation environment of the round-trip test: main topic
`"finance"`, audience `"managers"` (secondary and third topic arbitrary). -/
def financeEnv (sec third : Str) : Env :=
  { main := str "finance", secondary := sec, third := third,
    audRaw := str "managers", audValid := str "managers" }

theorem render_infix_of_mem (e : Env) {p : Piece} {ps : List Piece} (h : p ∈ ps) :
    pieceVal e p <:+: render e ps := by
  induction ps with
  | nil => simp at h
  | cons a as ih =>
    have hstep : render e (a :: as) = pieceVal e a ++ render e as := by
      unfold render
      simp
    rcases List.mem_cons.mp h with h | h
    · subst h
      rw [hstep]
      exact ⟨[], render e as, rfl⟩
    · obtain ⟨l, r, he⟩ := ih h
      rw [hstep, ← he]
      exact ⟨pieceVal e a ++ l, r, by simp⟩

theorem allTitleTemplates_capMain :
    allTitleTemplates.all (fun ps => Piece.capMain ∈ ps) = true := by decide

theorem allDescTemplates_mainT :
    allDescTemplates.all (fun ps => Piece.mainT ∈ ps) = true := by decide

/-- C5 counterexample: a title template in the bucket whose interpolation
with main topic `"finance"` and audience `"managers"` contains neither
`"finance"` nor `"managers"` as a substring (the main topic is capitalised
in title templates, and this template has no audience slot), refuting the
claim as stated. -/
theorem interpolation_roundtrip_cex :
    ∃ ps ∈ allTitleTemplates,
      jsIncludes (render (financeEnv (str "strategies") (str "success")) ps)
        (str "finance") = false ∧
      jsIncludes (render (financeEnv (str "strategies") (str "success")) ps)
        (str "managers") = false := by decide

/-- C5 (amended): interpolating any title template with main topic
`"finance"` yields a string containing the capitalised `"Finance"`
verbatim, and interpolating any description template yields a string
containing `"finance"` verbatim — with no truncation or escaping; the
audience string appears only in templates with an audience slot. -/
theorem interpolation_contains_topic (sec third : Str) (ps : List Piece) :
    (ps ∈ allTitleTemplates →
      str "Finance" <:+: render (financeEnv sec third) ps) ∧
    (ps ∈ allDescTemplates →
      str "finance" <:+: render (financeEnv sec third) ps) := by
  constructor
  · intro h
    have hcm : Piece.capMain ∈ ps :=
      of_decide_eq_true (List.all_eq_true.mp allTitleTemplates_capMain _ h)
    exact render_infix_of_mem (financeEnv sec third) hcm
  · intro h
    have hm : Piece.mainT ∈ ps :=
      of_decide_eq_true (List.all_eq_true.mp allDescTemplates_mainT _ h)
    exact render_infix_of_mem (financeEnv sec third) hm

/-- Witness for C5 at the first article title template. -/
theorem interpolation_contains_topic_witness :
    ([Piece.lit "The Complete Guide to ", Piece.capMain] ∈ allTitleTemplates) ∧
    str "Finance" <:+: render (financeEnv (str "strategies") (str "success"))
      [Piece.lit "The Complete Guide to ", Piece.capMain] :=
  ⟨by decide, (interpolation_contains_topic (str "strategies") (str "success")
    [Piece.lit "The Complete Guide to ", Piece.capMain]).1 (by decide)⟩

/-! ### Unknown tone pass-through (C7) -/

theorem titleToneRules_unknown {tone : String}
    (h : tone ∉ (["professional", "casual", "friendly", "authoritative"] : List String)) :
    titleToneRules tone = [] := by
  unfold titleToneRules
  split <;> simp_all

theorem descToneRules_unknown {tone : String}
    (h : tone ∉ (["professional", "casual", "friendly", "authoritative"] : List String)) :
    descToneRules tone = [] := by
  unfold descToneRules
  split <;> simp_all

theorem socialToneRules_unknown {tone : String}
    (h : tone ∉ (["professional", "casual", "friendly", "authoritative"] : List String)) :
    socialToneRules tone = [] := by
  unfold socialToneRules
  split <;> simp_all

set_option maxRecDepth 8000 in
/-- C7 counterexample: with the unknown tone `"neutral"` the social-copy
generator does not return the selected interpolated templates unchanged —
the hashtag-formatting pass still runs (here it title-cases
`#marketing`), refuting the claim as stated for `generateSocialCopy`. -/
theorem unknown_tone_social_changed_cex :
    generateSocialCopy "neutral"
        (socialBucket (str "marketing marketing") "article" "managers") ≠
      (socialBucket (str "marketing marketing") "article" "managers").take 3 := by
  decide

/-- C7 (amended): for every tone outside the four known ones, no tone
substitution is applied — `generateTitles` and `generateDescriptions`
return the selected interpolated templates unchanged, while
`generateSocialCopy` applies exactly the final hashtag-formatting pass to
them. -/
theorem unknown_tone_passthrough {tone : String}
    (h : tone ∉ (["professional", "casual", "friendly", "authoritative"] : List String))
    (tS dS sS : List Str) :
    generateTitles tone tS = tS.take 5 ∧
    generateDescriptions tone dS = dS.take 3 ∧
    generateSocialCopy tone sS = (sS.take 3).map formatHashtags := by
  have hid : ∀ (l : List Str), l.map (applyRules []) = l := by
    intro l
    have : l.map (applyRules []) = l.map id := List.map_congr_left (fun a _ => rfl)
    rw [this, List.map_id]
  refine ⟨?_, ?_, ?_⟩
  · unfold generateTitles
    rw [titleToneRules_unknown h, hid]
  · unfold generateDescriptions
    rw [descToneRules_unknown h, hid]
  · unfold generateSocialCopy
    rw [socialToneRules_unknown h, hid]

/-- Witness for C7 at the tone `"neutral"` and concrete lists. -/
theorem unknown_tone_passthrough_witness :
    ("neutral" ∉ (["professional", "casual", "friendly", "authoritative"] : List String)) ∧
    (generateTitles "neutral" [str "a title"] = [str "a title"].take 5 ∧
      generateDescriptions "neutral" [str "a description"] = [str "a description"].take 3 ∧
      generateSocialCopy "neutral" [str "post #news"] =
        ([str "post #news"].take 3).map formatHashtags) :=
  ⟨by decide, unknown_tone_passthrough (by decide) [str "a title"] [str "a description"]
    [str "post #news"]⟩

/-- Witness for C6 with the identity shuffle at a concrete request. -/
theorem professional_titles_clean_witness :
    (∀ t ∈ generateTitles "professional"
        (titleBucket (str "marketing tips") "article" "managers"), '!' ∉ t) ∧
    ("managers" = "managers" →
      ∀ t ∈ generateTitles "professional"
        (titleBucket (str "marketing tips") "article" "managers"),
        '!' ∉ t ∧ ∀ e ∈ titleEmojiPats,
          jsIncludes t e = false) :=
  professional_titles_clean (str "marketing tips") "article" "managers" _
    (List.Perm.refl _)
